import Mathlib

/-!
Verification of the PickleRank core engine specification against a shallow
embedding of the backend source (`src/backend/app/domain/...` and the
application services).

Conventions of the embedding:
* Python `float` rating arithmetic is modelled over `ℚ`.  The transcendental
  `10.0 ** x` appearing in the ELO expected-score formulas is modelled by an
  abstract parameter `pow10 : ℚ → ℚ`; theorems that need it assume only the
  properties the real function has (strict positivity).
* Python `uuid.UUID` identifiers are modelled by `Nat`.
* Python dicts keyed by player id are modelled by insertion-ordered
  association lists `List (Nat × α)` (dict keys are unique and iterate in
  insertion order), or by total functions when only get/set with a default
  is used.
* Python `set`/`frozenset` of ids are modelled by `Finset Nat`.
-/

/-- Python builtin `max` on two floats, written out so that the kernel can
evaluate it (agrees with `Max.max` on `ℚ`, see `pyMax_eq`). -/
def pyMax (a b : ℚ) : ℚ := if a ≤ b then b else a

/-- Python builtin `min` on two floats (agrees with `Min.min` on `ℚ`). -/
def pyMin (a b : ℚ) : ℚ := if a ≤ b then a else b

/-- Python builtin `abs` on a float (agrees with `|·|` on `ℚ`). -/
def pyAbs (x : ℚ) : ℚ := if x < 0 then -x else x

namespace Ratings

/-- `app/domain/ratings/base.py`: `GameResult`. -/
inductive GameResult
  | TEAM1_WIN
  | TEAM2_WIN
  | TIE
  | UNSET
deriving DecidableEq

/-- `app/domain/ratings/base.py`: `PlayerRating`. -/
structure PlayerRating where
  player_id : Nat
  rating : ℚ
  display_name : String := ""
deriving DecidableEq

/-- `app/domain/ratings/base.py`: `GameForRating`. -/
structure GameForRating where
  team1 : PlayerRating × PlayerRating
  team2 : PlayerRating × PlayerRating
  result : GameResult
  score_team1 : Option ℚ := none
  score_team2 : Option ℚ := none
deriving DecidableEq

/-- `app/domain/ratings/base.py`: `RatingDelta`. -/
structure RatingDelta where
  player_id : Nat
  rating_before : ℚ
  rating_after : ℚ
  delta : ℚ
  display_name : String := ""
deriving DecidableEq

/-- Dict lookup: the value stored under key `k` (keys are unique in all the
dicts we model, so first-match lookup agrees with Python's dict). -/
def getVal (l : List (Nat × α)) (k : Nat) : Option α :=
  (l.find? (fun e => e.1 == k)).map (fun e => e.2)

/-- `base.py` `RatingSystem._get_team_average`. -/
def getTeamAverage (p1 p2 : PlayerRating) : ℚ :=
  (p1.rating + p2.rating) / 2

/-- `base.py` `RatingSystem._get_expected_score`:
`1 / (1 + 10 ** ((rating_b - rating_a) / elo_const))`, with `10 ** x`
abstracted as `pow10`. -/
def getExpectedScore (pow10 : ℚ → ℚ) (elo_const rating_a rating_b : ℚ) : ℚ :=
  1 / (1 + pow10 ((rating_b - rating_a) / elo_const))

/-- `base.py` `RatingSystem._get_actual_score`. -/
def getActualScore (result : GameResult) (is_team1 : Bool) : ℚ :=
  match result with
  | .UNSET => 1/2
  | .TIE => 1/2
  | .TEAM1_WIN => if is_team1 then 1 else 0
  | .TEAM2_WIN => if is_team1 then 0 else 1

/-- The `player_deltas` / `player_info` pair of dicts each engine threads
through its game loop. -/
abbrev EngineState := List (Nat × ℚ) × List (Nat × PlayerRating)

/-- One step of the `if p.player_id not in player_info` registration loop:
first sight of a player initialises `player_info[p]` and
`player_deltas[p] = 0.0`. -/
def registerPlayer (st : EngineState) (p : PlayerRating) : EngineState :=
  if (getVal st.2 p.player_id).isSome then st
  else (st.1 ++ [(p.player_id, 0)], st.2 ++ [(p.player_id, p)])

/-- `for p in [*game.team1, *game.team2]: ...` registration of one game's
four players. -/
def registerGamePlayers (st : EngineState) (g : GameForRating) : EngineState :=
  [g.team1.1, g.team1.2, g.team2.1, g.team2.2].foldl registerPlayer st

/-- `player_deltas[p.player_id] += d`. -/
def addDelta (deltas : List (Nat × ℚ)) (k : Nat) (d : ℚ) : List (Nat × ℚ) :=
  deltas.map (fun e => if e.1 == k then (e.1, e.2 + d) else e)

/-- The result-building loop shared verbatim by all three engines:
`rating_before = current_ratings.get(pid, player_info[pid].rating)` and
`rating_after = rating_before + delta`. -/
def buildResult (deltas : List (Nat × ℚ)) (info : List (Nat × PlayerRating))
    (cur : Nat → Option ℚ) : List (Nat × RatingDelta) :=
  deltas.map (fun e =>
    let pinfo := (getVal info e.1).getD ⟨e.1, 0, ""⟩
    let rating_before := (cur e.1).getD pinfo.rating
    (e.1, ⟨e.1, rating_before, rating_before + e.2, e.2, pinfo.display_name⟩))

/-- `serious_elo.py` `SeriousEloRating.calculate_deltas`, body of the
per-game loop. -/
def seriousGameStep (pow10 : ℚ → ℚ) (k_factor elo_const : ℚ)
    (st : EngineState) (g : GameForRating) : EngineState :=
  if g.result = GameResult.UNSET then st
  else
    let st := registerGamePlayers st g
    let team1_rating := getTeamAverage g.team1.1 g.team1.2
    let team2_rating := getTeamAverage g.team2.1 g.team2.2
    let expected_team1 := getExpectedScore pow10 elo_const team1_rating team2_rating
    let actual_team1 := getActualScore g.result true
    let delta_team1 := k_factor * (actual_team1 - expected_team1)
    let delta_team2 := -delta_team1
    let d1 := addDelta st.1 g.team1.1.player_id delta_team1
    let d2 := addDelta d1 g.team1.2.player_id delta_team1
    let d3 := addDelta d2 g.team2.1.player_id delta_team2
    let d4 := addDelta d3 g.team2.2.player_id delta_team2
    (d4, st.2)

/-- `serious_elo.py` `SeriousEloRating.calculate_deltas`. -/
def seriousCalculateDeltas (pow10 : ℚ → ℚ) (k_factor elo_const : ℚ)
    (games : List GameForRating) (cur : Nat → Option ℚ) : List (Nat × RatingDelta) :=
  let st := games.foldl (seriousGameStep pow10 k_factor elo_const) ([], [])
  buildResult st.1 st.2 cur

/-- `racs_elo.py` `RacsEloRating._calc_expected`: the `player_rating == 0`
guard returns `0.5`. -/
def racsCalcExpected (pow10 : ℚ → ℚ) (elo_const player_rating opponent_team_avg : ℚ) : ℚ :=
  if player_rating = 0 then 1/2
  else 1 / (1 + pow10 ((player_rating - opponent_team_avg) / (player_rating * elo_const)))

/-- `racs_elo.py` `RacsEloRating.calculate_deltas`, body of the per-game
loop.  `K = 10 * |score_diff|` when both scores are present, else the
configured `k_factor`; ties fall through with no delta change. -/
def racsGameStep (pow10 : ℚ → ℚ) (k_factor elo_const : ℚ)
    (st : EngineState) (g : GameForRating) : EngineState :=
  if g.result = GameResult.UNSET then st
  else
    let st := registerGamePlayers st g
    let p1 := g.team1.1
    let p2 := g.team1.2
    let p3 := g.team2.1
    let p4 := g.team2.2
    let team1_avg := getTeamAverage p1 p2
    let team2_avg := getTeamAverage p3 p4
    let e1 := racsCalcExpected pow10 elo_const p1.rating team2_avg
    let e2 := racsCalcExpected pow10 elo_const p2.rating team2_avg
    let e3 := racsCalcExpected pow10 elo_const p3.rating team1_avg
    let e4 := racsCalcExpected pow10 elo_const p4.rating team1_avg
    let k_const :=
      match g.score_team1, g.score_team2 with
      | some s1, some s2 => 10 * pyAbs (s1 - s2)
      | _, _ => k_factor
    match g.result with
    | GameResult.TEAM1_WIN =>
        let d1 := addDelta st.1 p1.player_id (k_const * e1)
        let d2 := addDelta d1 p2.player_id (k_const * e2)
        let d3 := addDelta d2 p3.player_id (k_const * (-1 + e3))
        let d4 := addDelta d3 p4.player_id (k_const * (-1 + e4))
        (d4, st.2)
    | GameResult.TEAM2_WIN =>
        let d1 := addDelta st.1 p1.player_id (k_const * (-1 + e1))
        let d2 := addDelta d1 p2.player_id (k_const * (-1 + e2))
        let d3 := addDelta d2 p3.player_id (k_const * e3)
        let d4 := addDelta d3 p4.player_id (k_const * e4)
        (d4, st.2)
    | _ => st

/-- `racs_elo.py` `RacsEloRating.calculate_deltas`. -/
def racsCalculateDeltas (pow10 : ℚ → ℚ) (k_factor elo_const : ℚ)
    (games : List GameForRating) (cur : Nat → Option ℚ) : List (Nat × RatingDelta) :=
  let st := games.foldl (racsGameStep pow10 k_factor elo_const) ([], [])
  buildResult st.1 st.2 cur

/-- `catch_up_elo.py` first pass: collect every player appearing in the
batch (UNSET games included) into the two dicts. -/
def collectPlayers (games : List GameForRating) : EngineState :=
  games.foldl registerGamePlayers ([], [])

/-- Insertion into a sorted list of rationals (ascending). -/
def insertSorted (x : ℚ) : List ℚ → List ℚ
  | [] => [x]
  | y :: ys => if x ≤ y then x :: y :: ys else y :: insertSorted x ys

/-- `sorted(ratings)`. -/
def sortRatings (l : List ℚ) : List ℚ := l.foldr insertSorted []

/-- `catch_up_elo.py` median computation over the batch's players'
current ratings (`1000.0` for an empty batch; mean of the two middle
elements for even length). -/
def medianRating (ratings : List ℚ) : ℚ :=
  let s := sortRatings ratings
  let n := s.length
  if n = 0 then 1000
  else if n % 2 = 0 then (((s.get? (n / 2 - 1)).getD 0) + ((s.get? (n / 2)).getD 0)) / 2
  else (s.get? (n / 2)).getD 0

/-- `CatchUpEloRating.__init__`: `self.gain_boost_max = 0.50`. -/
def gainBoostMax : ℚ := 1/2

/-- `CatchUpEloRating.__init__`: `self.gain_reduction_max = 0.30`. -/
def gainReductionMax : ℚ := 3/10

/-- `CatchUpEloRating.__init__`: `self.loss_penalty_max = 0.20`. -/
def lossPenaltyMax : ℚ := 1/5

/-- `catch_up_elo.py` `CatchUpEloRating._adjust_delta`. -/
def adjustDelta (base_delta player_rating median_rating : ℚ) : ℚ :=
  if median_rating = 0 then base_delta
  else
    let dist := (player_rating - median_rating) / median_rating
    let dist := pyMax (-(1/2)) (pyMin (1/2) dist)
    if 0 < base_delta then
      if player_rating < median_rating then
        let boost := gainBoostMax * pyAbs dist * 2
        base_delta * (1 + boost)
      else
        let reduction := gainReductionMax * pyAbs dist * 2
        base_delta * (1 - reduction)
    else
      if median_rating < player_rating then
        let penalty := lossPenaltyMax * pyAbs dist * 2
        base_delta * (1 + penalty)
      else
        base_delta

/-- `catch_up_elo.py` `CatchUpEloRating.calculate_deltas`, body of the
per-game loop (second pass). -/
def catchUpGameStep (pow10 : ℚ → ℚ) (k_factor elo_const : ℚ)
    (cur : Nat → Option ℚ) (median_rating : ℚ)
    (deltas : List (Nat × ℚ)) (g : GameForRating) : List (Nat × ℚ) :=
  if g.result = GameResult.UNSET then deltas
  else
    let team1_rating := getTeamAverage g.team1.1 g.team1.2
    let team2_rating := getTeamAverage g.team2.1 g.team2.2
    let expected_team1 := getExpectedScore pow10 elo_const team1_rating team2_rating
    let actual_team1 := getActualScore g.result true
    let base_delta_team1 := k_factor * (actual_team1 - expected_team1)
    let d1 := addDelta deltas g.team1.1.player_id
      (adjustDelta base_delta_team1 ((cur g.team1.1.player_id).getD g.team1.1.rating) median_rating)
    let d2 := addDelta d1 g.team1.2.player_id
      (adjustDelta base_delta_team1 ((cur g.team1.2.player_id).getD g.team1.2.rating) median_rating)
    let d3 := addDelta d2 g.team2.1.player_id
      (adjustDelta (-base_delta_team1) ((cur g.team2.1.player_id).getD g.team2.1.rating) median_rating)
    let d4 := addDelta d3 g.team2.2.player_id
      (adjustDelta (-base_delta_team1) ((cur g.team2.2.player_id).getD g.team2.2.rating) median_rating)
    d4

/-- `catch_up_elo.py` `CatchUpEloRating.calculate_deltas`. -/
def catchUpCalculateDeltas (pow10 : ℚ → ℚ) (k_factor elo_const : ℚ)
    (games : List GameForRating) (cur : Nat → Option ℚ) : List (Nat × RatingDelta) :=
  let st := collectPlayers games
  let ratings := st.2.map (fun e => (cur e.1).getD e.2.rating)
  let median_rating := medianRating ratings
  let deltas := games.foldl (catchUpGameStep pow10 k_factor elo_const cur median_rating) st.1
  buildResult deltas st.2 cur

/-- Sum of the `delta` fields of a returned map. -/
def sumDeltas (res : List (Nat × RatingDelta)) : ℚ :=
  (res.map (fun e => e.2.delta)).sum

/-- The four player ids of a rating-input game are pairwise distinct. -/
def fourDistinct (g : GameForRating) : Prop :=
  ([g.team1.1.player_id, g.team1.2.player_id,
    g.team2.1.player_id, g.team2.2.player_id] : List Nat).Nodup

instance (g : GameForRating) : Decidable (fourDistinct g) := by
  unfold fourDistinct; infer_instance

/-- The `delta` recorded for a player in a returned map. -/
def lookupDelta (res : List (Nat × RatingDelta)) (pid : Nat) : Option ℚ :=
  (getVal res pid).map (fun rd => rd.delta)

/-- Well-formedness of the two engine dicts: they hold the same keys, each
at most once (Python dict keys are unique; the engines insert into both
dicts together). -/
def EngineInv (st : EngineState) : Prop :=
  st.1.map Prod.fst = st.2.map Prod.fst ∧ (st.2.map Prod.fst).Nodup

/-- The ratings list the Catch-Up median is computed over, for one game's
four players (their `current_ratings.get(pid, p.rating)` values). -/
def gameRatings (g : GameForRating) (cur : Nat → Option ℚ) : List ℚ :=
  [g.team1.1, g.team1.2, g.team2.1, g.team2.2].map
    (fun p => (cur p.player_id).getD p.rating)

end Ratings

namespace MM

/-- `app/domain/matchmaking/constraints.py`: `ConstraintConfig` (defaults
from the dataclass). -/
structure ConstraintConfig where
  no_repeat_teammate_in_event : Bool := true
  no_repeat_teammate_from_previous_event : Bool := true
  no_repeat_opponent_in_event : Bool := true
  elo_diff : ℚ := 5/100
  auto_relax_elo_diff : Bool := true
  auto_relax_step : ℚ := 1/100
  auto_relax_max_elo_diff : ℚ := 1/4
deriving DecidableEq

/-- `constraints.py`: `Player` (matchmaking view of a player). -/
structure MPlayer where
  id : Nat
  rating : ℚ
  display_name : String := ""
deriving DecidableEq

/-- `constraints.py`: `Game` (a scheduled 2v2 game). -/
structure Game where
  round_index : Nat
  court_index : Nat
  team1 : Nat × Nat
  team2 : Nat × Nat
deriving DecidableEq

/-- `Game.all_players`. -/
def Game.allPlayers (g : Game) : Finset Nat :=
  {g.team1.1, g.team1.2, g.team2.1, g.team2.2}

/-- `Game.teammate_pairs`. -/
def Game.teammatePairs (g : Game) : Finset (Finset Nat) :=
  {{g.team1.1, g.team1.2}, {g.team2.1, g.team2.2}}

/-- `Game.opponent_pairs`. -/
def Game.opponentPairs (g : Game) : Finset (Finset Nat) :=
  {{g.team1.1, g.team2.1}, {g.team1.1, g.team2.2},
   {g.team1.2, g.team2.1}, {g.team1.2, g.team2.2}}

/-- `ConstraintChecker.check_teammate_constraint_in_event`. -/
def checkTeammateInEvent (cfg : ConstraintConfig) (new_pair : Finset Nat)
    (existing_pairs : Finset (Finset Nat)) : Bool :=
  if !cfg.no_repeat_teammate_in_event then true
  else decide (new_pair ∉ existing_pairs)

/-- `ConstraintChecker.check_teammate_constraint_from_previous`
(`previous_teammate_pairs` is the checker's constructor argument). -/
def checkTeammateFromPrevious (cfg : ConstraintConfig)
    (previous_teammate_pairs : Finset (Finset Nat)) (new_pair : Finset Nat) : Bool :=
  if !cfg.no_repeat_teammate_from_previous_event then true
  else decide (new_pair ∉ previous_teammate_pairs)

/-- `ConstraintChecker.check_opponent_constraint`: rejects a game iff some
of its opponent pairs already has a count `>= 2`.  Counts are a total
function (dict `get(pair, 0)`). -/
def checkOpponentConstraint (cfg : ConstraintConfig)
    (new_pairs : Finset (Finset Nat)) (opponent_counts : Finset Nat → Nat) : Bool :=
  if !cfg.no_repeat_opponent_in_event then true
  else decide (∀ p ∈ new_pairs, opponent_counts p < 2)

/-- `ConstraintChecker.check_rating_balance`: guard `max_rating == 0`
returns `True`, otherwise compares the relative imbalance to `elo_diff`. -/
def checkRatingBalance (team1_rating team2_rating elo_diff : ℚ) : Bool :=
  let max_rating := pyMax team1_rating team2_rating
  if max_rating = 0 then true
  else decide (pyAbs (team1_rating - team2_rating) / max_rating ≤ elo_diff)

/-- The else-branch condition of `check_rating_balance`: exactly when it
holds does the function evaluate the division `diff / max_rating`. -/
def balanceFormulaUsed (team1_rating team2_rating : ℚ) : Bool :=
  !(decide (pyMax team1_rating team2_rating = 0))

/-- `constraints.py` `ConstraintChecker.check_swap_warnings`: the only
warning produced is a teammate repeat against the previous event
(`break` after the first violating pair). -/
def checkSwapWarnings (cfg : ConstraintConfig) (prev : Finset (Finset Nat))
    (game_after_swap : Game) : List String :=
  if decide (∃ pair ∈ game_after_swap.teammatePairs,
      checkTeammateFromPrevious cfg prev pair = false) then
    ["Swap creates teammate repeat from previous event"]
  else []

/-- `generator.py` `ScheduleGenerator._check_hard_constraints`. -/
def checkHardConstraints (cfg : ConstraintConfig) (prev : Finset (Finset Nat))
    (game : Game) (event_teammate_pairs : Finset (Finset Nat))
    (opponent_counts : Finset Nat → Nat) : Bool :=
  decide (∀ pair ∈ game.teammatePairs,
      checkTeammateInEvent cfg pair event_teammate_pairs = true ∧
      checkTeammateFromPrevious cfg prev pair = true) &&
  checkOpponentConstraint cfg game.opponentPairs opponent_counts

/-- An unordered-teams match from the candidate pool:
`((team1_p1, team1_p2), (team2_p1, team2_p2))` player ids. -/
abbrev Match := (Nat × Nat) × (Nat × Nat)

/-- `itertools.combinations(l, 2)` in its enumeration order. -/
def pairsOf : List α → List (α × α)
  | [] => []
  | x :: xs => (xs.map fun y => (x, y)) ++ pairsOf xs

/-- `generator.py` `ScheduleGenerator._generate_all_valid_matches`: all
ordered pairs of disjoint 2-subsets of the participants whose team mean
ratings pass `check_rating_balance` at the given `elo_diff`. -/
def validMatches (players : List MPlayer) (elo_diff : ℚ) :
    List Match :=
  let pairs := pairsOf players
  pairs.flatMap fun t1 =>
    pairs.filterMap fun t2 =>
      if ({t1.1.id, t1.2.id} ∩ {t2.1.id, t2.2.id} : Finset Nat).Nonempty then none
      else
        let team1_rating := (t1.1.rating + t1.2.rating) / 2
        let team2_rating := (t2.1.rating + t2.2.rating) / 2
        if checkRatingBalance team1_rating team2_rating elo_diff then
          some ((t1.1.id, t1.2.id), (t2.1.id, t2.2.id))
        else none

/-- `ScheduleGenerator.MAX_ROUND_ATTEMPTS`. -/
def MAX_ROUND_ATTEMPTS : Nat := 100

/-- Increment the per-pair counts for every opponent pair of a newly
admitted game (`round_opponent_counts[pair] += 1`). -/
def bumpOpp (counts : Finset Nat → Nat) (pairs : Finset (Finset Nat)) :
    Finset Nat → Nat :=
  fun p => counts p + (if p ∈ pairs then 1 else 0)

/-- The mutable state of one greedy pass of
`_select_round_matches`: games selected so far, players already used this
round, and the round-local teammate/opponent tracking. -/
structure SelState where
  selected : List Game
  used : Finset Nat
  roundTeammates : Finset (Finset Nat)
  roundOpp : Finset Nat → Nat

/-- The greedy walk over one shuffled candidate pool inside
`_select_round_matches`: skip a candidate whose players overlap the round,
or which fails `_check_hard_constraints` against the merged event + round
tracking; otherwise admit it, and return as soon as `courts` games are
selected. -/
def selectLoop (cfg : ConstraintConfig) (prev : Finset (Finset Nat))
    (courts round_idx : Nat) (evT : Finset (Finset Nat)) (evO : Finset Nat → Nat) :
    List Match → SelState → Option (List Game)
  | [], _ => none
  | m :: rest, st =>
    let mPlayers : Finset Nat := {m.1.1, m.1.2, m.2.1, m.2.2}
    if (mPlayers ∩ st.used).Nonempty then
      selectLoop cfg prev courts round_idx evT evO rest st
    else
      let game : Game := ⟨round_idx, st.selected.length, m.1, m.2⟩
      let combinedT := evT ∪ st.roundTeammates
      let combinedO := fun p => evO p + st.roundOpp p
      if !checkHardConstraints cfg prev game combinedT combinedO then
        selectLoop cfg prev courts round_idx evT evO rest st
      else
        let st' : SelState :=
          ⟨st.selected ++ [game], st.used ∪ mPlayers,
           st.roundTeammates ∪ game.teammatePairs,
           bumpOpp st.roundOpp game.opponentPairs⟩
        if st'.selected.length = courts then some st'.selected
        else selectLoop cfg prev courts round_idx evT evO rest st'

/-- The retry loop of `_select_round_matches`: up to `MAX_ROUND_ATTEMPTS`
fresh shuffles of the pool, each walked greedily from the empty state.
`shuffle t pool` is the PRNG's permutation of the pool on attempt `t`. -/
def selectRoundGo (shuffle : Nat → List Match → List Match)
    (cfg : ConstraintConfig) (prev : Finset (Finset Nat))
    (courts round_idx : Nat) (pool : List Match)
    (evT : Finset (Finset Nat)) (evO : Finset Nat → Nat) :
    Nat → Option (List Game)
  | 0 => none
  | t + 1 =>
    match selectLoop cfg prev courts round_idx evT evO
        (shuffle (MAX_ROUND_ATTEMPTS - (t + 1)) pool) ⟨[], ∅, ∅, fun _ => 0⟩ with
    | some gs => some gs
    | none => selectRoundGo shuffle cfg prev courts round_idx pool evT evO t

/-- `generator.py` `ScheduleGenerator._select_round_matches`. -/
def selectRoundMatches (shuffle : Nat → List Match → List Match)
    (cfg : ConstraintConfig) (prev : Finset (Finset Nat))
    (courts round_idx : Nat) (pool : List Match)
    (evT : Finset (Finset Nat)) (evO : Finset Nat → Nat) : Option (List Game) :=
  selectRoundGo shuffle cfg prev courts round_idx pool evT evO MAX_ROUND_ATTEMPTS

/-- Failure classes reported by `_try_generate`. -/
inductive FailReason
  | rating
  | hard_constraints
deriving DecidableEq

/-- The round loop of `_try_generate`: `rem` rounds remain, `rIdx` is the
next round index; after a successful round the event teammate set and
opponent counts absorb the round's games. -/
def tryGenAux (shuffle : Nat → Nat → List Match → List Match)
    (cfg : ConstraintConfig) (prev : Finset (Finset Nat))
    (courts : Nat) (pool : List Match) :
    Nat → Nat → List Game → Finset (Finset Nat) → (Finset Nat → Nat) →
    List Game × Bool × Option FailReason
  | 0, _, acc, _, _ => (acc, true, none)
  | rem + 1, rIdx, acc, evT, evO =>
    match selectRoundMatches (shuffle rIdx) cfg prev courts rIdx pool evT evO with
    | none => ([], false, some FailReason.hard_constraints)
    | some round_games =>
      let evT' := round_games.foldl (fun s g => s ∪ g.teammatePairs) evT
      let evO' := round_games.foldl (fun f g => bumpOpp f g.opponentPairs) evO
      tryGenAux shuffle cfg prev courts pool rem (rIdx + 1) (acc ++ round_games) evT' evO'

/-- `generator.py` `ScheduleGenerator._try_generate`: empty candidate pool
fails with the `rating` class; a round that cannot be filled fails with the
`hard_constraints` class. -/
def tryGenerate (shuffle : Nat → Nat → List Match → List Match)
    (cfg : ConstraintConfig) (prev : Finset (Finset Nat))
    (players : List MPlayer) (courts rounds : Nat) (elo_diff : ℚ) :
    List Game × Bool × Option FailReason :=
  let valid_matches := validMatches players elo_diff
  if valid_matches = [] then ([], false, some FailReason.rating)
  else tryGenAux shuffle cfg prev courts valid_matches rounds 0 [] ∅ (fun _ => 0)

/-- The distinct error messages of `ScheduleGenerator.generate`, modelled
as tags (the source formats strings; wall-clock metadata is not modelled). -/
inductive GenErrorKind
  | rating_max_exceeded
  | hard_constraints_unsat
  | rating_no_relax
  | generic
deriving DecidableEq

/-- `generator.py` `GenerationResult` together with the metadata fields the
spec's claims mention (seed and duration omitted: the seed only selects the
`shuffle` family and the duration is wall-clock). -/
structure GenResult where
  success : Bool
  games : List Game
  elo_diff_configured : ℚ
  elo_diff_used : ℚ
  relax_iterations : Nat
  attempts : Nat
  error : Option GenErrorKind := none
deriving DecidableEq

/-- The `while True` relaxation loop of `ScheduleGenerator.generate`,
with explicit fuel (the Python loop is unbounded; `none` means the loop is
still running after `fuel` iterations).  `shuffle ri` is the PRNG shuffle
family after reseeding with relax iteration `ri`. -/
def generateAux (shuffle : Nat → Nat → Nat → List Match → List Match)
    (cfg : ConstraintConfig) (prev : Finset (Finset Nat))
    (players : List MPlayer) (courts rounds : Nat) :
    Nat → Nat → Nat → ℚ → Option GenResult
  | 0, _, _, _ => none
  | fuel + 1, attempts, relax_iterations, current_elo_diff =>
    let r := tryGenerate (shuffle relax_iterations) cfg prev players courts rounds
      current_elo_diff
    let attempts' := attempts + 1
    if r.2.1 then
      some ⟨true, r.1, cfg.elo_diff, current_elo_diff, relax_iterations, attempts', none⟩
    else if cfg.auto_relax_elo_diff = true ∧ r.2.2 = some FailReason.rating then
      let current' := current_elo_diff + cfg.auto_relax_step
      let relax' := relax_iterations + 1
      if cfg.auto_relax_max_elo_diff < current' then
        some ⟨false, [], cfg.elo_diff, current', relax', attempts',
          some GenErrorKind.rating_max_exceeded⟩
      else
        generateAux shuffle cfg prev players courts rounds fuel attempts' relax' current'
    else
      some ⟨false, [], cfg.elo_diff, current_elo_diff, relax_iterations, attempts',
        some (if r.2.2 = some FailReason.hard_constraints then
                GenErrorKind.hard_constraints_unsat
              else if r.2.2 = some FailReason.rating ∧ cfg.auto_relax_elo_diff = false then
                GenErrorKind.rating_no_relax
              else GenErrorKind.generic)⟩

/-- `ScheduleGenerator.generate`, entered with zero attempts, zero relax
iterations and the configured `elo_diff`. -/
def generate (shuffle : Nat → Nat → Nat → List Match → List Match)
    (cfg : ConstraintConfig) (prev : Finset (Finset Nat))
    (players : List MPlayer) (courts rounds fuel : Nat) : Option GenResult :=
  generateAux shuffle cfg prev players courts rounds fuel 0 0 cfg.elo_diff

/-- The id set of the participant list. -/
def idSet (players : List MPlayer) : Finset Nat :=
  (players.map MPlayer.id).toFinset

/-- The four player ids of a match, as a list. -/
def matchIdList (m : Match) : List Nat := [m.1.1, m.1.2, m.2.1, m.2.2]

/-- The four player ids of a scheduled game, as a list. -/
def gameIdList (g : Game) : List Nat := [g.team1.1, g.team1.2, g.team2.1, g.team2.2]

/-- Number of games of a schedule in which `p` is an opponent pair. -/
def countOpp (games : List Game) (p : Finset Nat) : Nat :=
  (games.filter (fun g => decide (p ∈ g.opponentPairs))).length

/-- The games of round `r` in a generated schedule. -/
def roundGames (games : List Game) (r : Nat) : List Game :=
  games.filter (fun g => decide (g.round_index = r))

/-- The set of players appearing in a list of games. -/
def unionPlayers (games : List Game) : Finset Nat :=
  games.foldr (fun g s => g.allPlayers ∪ s) ∅

/-- A well-formed candidate-pool match: four pairwise distinct player ids,
all drawn from the participant list. -/
def MatchOK (players : List MPlayer) (m : Match) : Prop :=
  (matchIdList m).Nodup ∧ ∀ x ∈ matchIdList m, x ∈ idSet players

/-- A well-formed scheduled game: four pairwise distinct player ids, all
drawn from the participant list. -/
def GameOK (players : List MPlayer) (g : Game) : Prop :=
  (gameIdList g).Nodup ∧ ∀ x ∈ gameIdList g, x ∈ idSet players

end MM

namespace Replay

/-- One row of the games query in
`group_service.py` `GroupService.recalculate_ratings` (display names do not
affect any rating arithmetic and are modelled as `""`). -/
structure RGame where
  id : Nat
  round_index : Nat
  team1_p1 : Nat
  team1_p2 : Nat
  team2_p1 : Nat
  team2_p2 : Nat
  result : Ratings.GameResult
  score_team1 : Option ℚ := none
  score_team2 : Option ℚ := none
deriving DecidableEq

/-- A rating engine as the replay loop consumes it
(`rating_system.calculate_deltas`). -/
abbrev Engine :=
  List Ratings.GameForRating → (Nat → Option ℚ) → List (Nat × Ratings.RatingDelta)

/-- The in-memory `current_ratings` dict with its `get(pid, base_rating)`
default folded in: a total map from player id to rating. -/
abbrev RMap := Nat → ℚ

/-- Building one `GameForRating` from the current in-memory ratings
(`t1p1_rating = current_ratings.get(game.team1_p1, base_rating)`, etc.). -/
def toGameForRating (cur : RMap) (g : RGame) : Ratings.GameForRating :=
  ⟨(⟨g.team1_p1, cur g.team1_p1, ""⟩, ⟨g.team1_p2, cur g.team1_p2, ""⟩),
   (⟨g.team2_p1, cur g.team2_p1, ""⟩, ⟨g.team2_p2, cur g.team2_p2, ""⟩),
   g.result, g.score_team1, g.score_team2⟩

/-- The per-game team-ELO snapshot: `team1_elo = (t1p1 + t1p2) / 2`,
`team2_elo = (t2p1 + t2p2) / 2` from the current in-memory ratings. -/
def teamElos (cur : RMap) (g : RGame) : ℚ × ℚ :=
  ((cur g.team1_p1 + cur g.team1_p2) / 2, (cur g.team2_p1 + cur g.team2_p2) / 2)

/-- The `UPDATE games SET team1_elo, team2_elo` rows persisted for one
round, keyed by game id. -/
def roundSnapshots (cur : RMap) (gs : List RGame) : List (Nat × ℚ × ℚ) :=
  gs.map (fun g => (g.id, teamElos cur g))

/-- `for player_id, delta in deltas.items(): current_ratings[player_id] =
delta.rating_after`. -/
def applyDeltas (deltas : List (Nat × Ratings.RatingDelta)) (cur : RMap) : RMap :=
  fun pid =>
    match Ratings.getVal deltas pid with
    | some rd => rd.rating_after
    | none => cur pid

/-- The body of `for round_index in sorted(games_by_round.keys())` in
`recalculate_ratings`: persist every game's team-ELO snapshot from the
current ratings, build the whole round's batch, run the engine once, and
apply the deltas. -/
def processRound (engine : Engine) (cur : RMap) (gs : List RGame) :
    List (Nat × ℚ × ℚ) × RMap :=
  let snaps := roundSnapshots cur gs
  let batch := gs.map (toGameForRating cur)
  let deltas := engine batch (fun pid => some (cur pid))
  (snaps, applyDeltas deltas cur)

/-- Processing an event's rounds in ascending `round_index` order,
accumulating the persisted snapshots per round. -/
def processRounds (engine : Engine) :
    List (List RGame) → RMap → List (List (Nat × ℚ × ℚ)) × RMap
  | [], cur => ([], cur)
  | r :: rs, cur =>
    let step := processRound engine cur r
    let rest := processRounds engine rs step.2
    (step.1 :: rest.1, rest.2)

/-- Insertion into a sorted list of naturals (ascending). -/
def insertSortedNat (x : Nat) : List Nat → List Nat
  | [] => [x]
  | y :: ys => if x ≤ y then x :: y :: ys else y :: insertSortedNat x ys

/-- `sorted(keys)`. -/
def sortNat (l : List Nat) : List Nat := l.foldr insertSortedNat []

/-- `games_by_round` grouping of `recalculate_ratings`: games with result
`UNSET` are dropped, the rest are bucketed by `round_index` and the buckets
are visited in ascending key order. -/
def groupRounds (games : List RGame) : List (List RGame) :=
  let scored := games.filter (fun g => decide (g.result ≠ Ratings.GameResult.UNSET))
  let keys := sortNat ((scored.map (fun g => g.round_index)).dedup)
  keys.map (fun r => scored.filter (fun g => decide (g.round_index = r)))

/-- The round-by-round replay of one event inside
`GroupService.recalculate_ratings`. -/
def recalcEvent (engine : Engine) (games : List RGame) (cur : RMap) :
    List (List (Nat × ℚ × ℚ)) × RMap :=
  processRounds engine (groupRounds games) cur

end Replay

namespace Swap

/-- One row of `games_repo.list_by_event` as
`EventService.swap_players` reads it. -/
structure DBGame where
  id : Nat
  round_index : Nat
  court_index : Nat
  team1_p1 : Nat
  team1_p2 : Nat
  team2_p1 : Nat
  team2_p2 : Nat
  swapped : Bool := false
deriving DecidableEq

/-- The four position columns scanned by `swap_players`, in scan order. -/
inductive Pos
  | t1p1
  | t1p2
  | t2p1
  | t2p2
deriving DecidableEq

/-- `game[pos]`. -/
def getPos (g : DBGame) : Pos → Nat
  | .t1p1 => g.team1_p1
  | .t1p2 => g.team1_p2
  | .t2p1 => g.team2_p1
  | .t2p2 => g.team2_p2

/-- `UPDATE games SET {pos} = pid`. -/
def setPos (g : DBGame) : Pos → Nat → DBGame
  | .t1p1, pid => { g with team1_p1 := pid }
  | .t1p2, pid => { g with team1_p2 := pid }
  | .t2p1, pid => { g with team2_p1 := pid }
  | .t2p2, pid => { g with team2_p2 := pid }

/-- `UPDATE games SET ... swapped = TRUE`. -/
def setSwapped (g : DBGame) : DBGame := { g with swapped := true }

/-- The position list `["team1_p1", "team1_p2", "team2_p1", "team2_p2"]`. -/
def positions : List Pos := [Pos.t1p1, Pos.t1p2, Pos.t2p1, Pos.t2p2]

/-- The scanning loop of `swap_players` for one player: every game of the
round and every position is visited, the last match overwriting earlier
ones (`game1 = game; pos1 = pos` inside the loop). -/
def findPlayer (round_games : List DBGame) (pid : Nat) : Option (DBGame × Pos) :=
  round_games.foldl
    (fun acc g =>
      positions.foldl (fun a pos => if getPos g pos = pid then some (g, pos) else a) acc)
    none

/-- Event status lifecycle tags. -/
inductive EventStatus
  | DRAFT
  | GENERATED
  | IN_PROGRESS
  | COMPLETED
deriving DecidableEq

/-- The error exits of `swap_players` (ownership and lookup of the event
happen upstream and are not modelled). -/
inductive SwapError
  | completedEvent
  | noGamesInRound
  | playerNotFound
deriving DecidableEq

/-- `api/schemas/events.py` `SwapResponse`. -/
structure SwapResponse where
  success : Bool
  warnings : List String
deriving DecidableEq

/-- `event_service.py` `EventService.swap_players`: refuse COMPLETED
events, find the two players in the round, swap them in place (same game or
across two games, marking `swapped`), move GENERATED to IN_PROGRESS, and
return `SwapResponse(success=True, warnings=warnings)` where `warnings`
is the literal empty list (`# TODO: Implement constraint warnings for
swaps` in the source). -/
def swapPlayers (status : EventStatus) (all_games : List DBGame)
    (round_index player1_id player2_id : Nat) :
    Except SwapError (List DBGame × EventStatus × SwapResponse) :=
  if status = EventStatus.COMPLETED then .error SwapError.completedEvent
  else
    let round_games := all_games.filter (fun g => decide (g.round_index = round_index))
    if round_games = [] then .error SwapError.noGamesInRound
    else
      match findPlayer round_games player1_id, findPlayer round_games player2_id with
      | none, _ => .error SwapError.playerNotFound
      | some _, none => .error SwapError.playerNotFound
      | some (g1, pos1), some (g2, pos2) =>
        let games' :=
          if g1.id = g2.id then
            all_games.map (fun g =>
              if g.id = g1.id then
                setSwapped (setPos (setPos g pos1 player2_id) pos2 player1_id)
              else g)
          else
            all_games.map (fun g =>
              if g.id = g1.id then setSwapped (setPos g pos1 player2_id)
              else if g.id = g2.id then setSwapped (setPos g pos2 player1_id)
              else g)
        let status' := if status = EventStatus.GENERATED then
            EventStatus.IN_PROGRESS else status
        let warnings : List String := []
        .ok (games', status', ⟨true, warnings⟩)

/-- View of a swapped DB row as a matchmaking `Game`, for feeding the
(dead) `check_swap_warnings` domain function. -/
def toMMGame (g : DBGame) : MM.Game :=
  ⟨g.round_index, g.court_index, (g.team1_p1, g.team1_p2), (g.team2_p1, g.team2_p2)⟩

end Swap

namespace Fixtures

/-- A `pow10` realisation usable in witnesses (any positive function models
`10 ** x` for the structural claims; at equal ratings the exponent is `0`
and `10 ** 0 = 1`). -/
def pow10One : ℚ → ℚ := fun _ => 1

/-- Four players rated 1000, ids 1–4, team 1 beats team 2. -/
def gWinC : Ratings.GameForRating :=
  ⟨(⟨1, 1000, ""⟩, ⟨2, 1000, ""⟩), (⟨3, 1000, ""⟩, ⟨4, 1000, ""⟩),
   Ratings.GameResult.TEAM1_WIN, none, none⟩

/-- Four players rated 1000, ids 1–4, tie. -/
def gTieC : Ratings.GameForRating :=
  ⟨(⟨1, 1000, ""⟩, ⟨2, 1000, ""⟩), (⟨3, 1000, ""⟩, ⟨4, 1000, ""⟩),
   Ratings.GameResult.TIE, none, none⟩

/-- Four players rated 1000, ids 1–4, unscored game. -/
def gUnsetC : Ratings.GameForRating :=
  ⟨(⟨1, 1000, ""⟩, ⟨2, 1000, ""⟩), (⟨3, 1000, ""⟩, ⟨4, 1000, ""⟩),
   Ratings.GameResult.UNSET, none, none⟩

/-- A spread batch for the Catch-Up adjustment: ratings 800/900 vs
1100/1200 (median 1000), the underdogs win. -/
def gCatchC : Ratings.GameForRating :=
  ⟨(⟨1, 800, ""⟩, ⟨2, 900, ""⟩), (⟨3, 1100, ""⟩, ⟨4, 1200, ""⟩),
   Ratings.GameResult.TEAM1_WIN, none, none⟩

/-- Four equally rated participants. -/
def players4C : List MM.MPlayer :=
  [⟨1, 1000, ""⟩, ⟨2, 1000, ""⟩, ⟨3, 1000, ""⟩, ⟨4, 1000, ""⟩]

/-- The schedule the generator produces for `players4C`, one court, one
round, identity shuffles. -/
def res4C : MM.GenResult :=
  ⟨true, [⟨0, 0, (1, 2), (3, 4)⟩], 5/100, 5/100, 0, 1, none⟩

/-- All six pairings of ids 1–4: as a previous-event teammate set this
makes every match hard-infeasible. -/
def prevAllC : Finset (Finset Nat) :=
  {{1, 2}, {3, 4}, {1, 3}, {2, 4}, {1, 4}, {2, 3}}

/-- The identity realisation of the generator's shuffle family. -/
def idShuffle : Nat → Nat → Nat → List MM.Match → List MM.Match :=
  fun _ _ _ l => l

/-- A Serious-ELO engine instance for replay witnesses. -/
def engineC : Replay.Engine :=
  fun batch cur => Ratings.seriousCalculateDeltas pow10One 32 400 batch cur

/-- One completed replay game in round 0. -/
def rgameC : Replay.RGame :=
  ⟨1, 0, 1, 2, 3, 4, Ratings.GameResult.TEAM1_WIN, none, none⟩

/-- A flat in-memory rating map. -/
def curC : Replay.RMap := fun _ => 1000

/-- Round-0 games for the swap scenario: `(1,2) v (3,4)` and
`(5,6) v (7,8)`. -/
def gA : Swap.DBGame := ⟨1, 0, 0, 1, 2, 3, 4, false⟩

/-- Second round-0 game of the swap scenario. -/
def gB : Swap.DBGame := ⟨2, 0, 1, 5, 6, 7, 8, false⟩

end Fixtures

/-! ## Theorems -/

theorem pyMax_eq (a b : ℚ) : pyMax a b = max a b := by
  simp [pyMax, max_def]

theorem pyMin_eq (a b : ℚ) : pyMin a b = min a b := by
  simp [pyMin, min_def]

theorem pyAbs_eq (x : ℚ) : pyAbs x = |x| := by
  rcases lt_or_le x 0 with h | h
  · simp [pyAbs, h, abs_of_neg h]
  · simp [pyAbs, not_lt.2 h, abs_of_nonneg h]

namespace Ratings

theorem seriousGameStep_unset {g : GameForRating} (h : g.result = GameResult.UNSET)
    (pow10 : ℚ → ℚ) (k c : ℚ) (st : EngineState) :
    seriousGameStep pow10 k c st g = st := by
  simp [seriousGameStep, h]

theorem racsGameStep_unset {g : GameForRating} (h : g.result = GameResult.UNSET)
    (pow10 : ℚ → ℚ) (k c : ℚ) (st : EngineState) :
    racsGameStep pow10 k c st g = st := by
  simp [racsGameStep, h]

theorem catchUpGameStep_unset {g : GameForRating} (h : g.result = GameResult.UNSET)
    (pow10 : ℚ → ℚ) (k c : ℚ) (cur : Nat → Option ℚ) (m : ℚ)
    (deltas : List (Nat × ℚ)) :
    catchUpGameStep pow10 k c cur m deltas g = deltas := by
  simp [catchUpGameStep, h]

/-- C5: games with result UNSET are skipped — removing an UNSET game from
the batch leaves the Serious-ELO and Rac's-ELO maps unchanged, and the
Catch-Up per-game delta loop also skips UNSET games.  (The claim fails for
Catch-Up as a whole: see the counterexample — the UNSET game's players
still enter the median and the returned key set.) -/
theorem unset_games_skipped (pow10 : ℚ → ℚ) (k c : ℚ)
    (l1 l2 : List GameForRating) (g : GameForRating) (cur : Nat → Option ℚ)
    (m : ℚ) (deltas : List (Nat × ℚ))
    (h : g.result = GameResult.UNSET) :
    seriousCalculateDeltas pow10 k c (l1 ++ g :: l2) cur =
      seriousCalculateDeltas pow10 k c (l1 ++ l2) cur ∧
    racsCalculateDeltas pow10 k c (l1 ++ g :: l2) cur =
      racsCalculateDeltas pow10 k c (l1 ++ l2) cur ∧
    catchUpGameStep pow10 k c cur m deltas g = deltas := by
  refine ⟨?_, ?_, catchUpGameStep_unset h pow10 k c cur m deltas⟩
  · simp [seriousCalculateDeltas, List.foldl_append, seriousGameStep_unset h]
  · simp [racsCalculateDeltas, List.foldl_append, racsGameStep_unset h]

theorem unset_games_skipped_witness :
    Fixtures.gUnsetC.result = GameResult.UNSET ∧
    seriousCalculateDeltas Fixtures.pow10One 32 400 ([] ++ Fixtures.gUnsetC :: []) (fun _ => none) =
      seriousCalculateDeltas Fixtures.pow10One 32 400 ([] ++ []) (fun _ => none) :=
  ⟨rfl, (unset_games_skipped Fixtures.pow10One 32 400 [] [] Fixtures.gUnsetC
    (fun _ => none) 1000 [] rfl).1⟩

/-- C5 counterexample: for Catch-Up ELO, removing an UNSET game changes the
returned map — the four players of the UNSET game appear in the returned
key set (with zero delta) and enter the median. -/
theorem catch_up_unset_changes_result :
    catchUpCalculateDeltas Fixtures.pow10One 32 400 [Fixtures.gUnsetC] (fun _ => none) ≠
      catchUpCalculateDeltas Fixtures.pow10One 32 400 [] (fun _ => none) := by
  with_unfolding_all decide

theorem foldl_deltas_zero (pow10 : ℚ → ℚ) (k c : ℚ)
    (games : List GameForRating)
    (h : ∀ g ∈ games, g.result = GameResult.TIE ∨ g.result = GameResult.UNSET) :
    ∀ st : EngineState, (∀ v ∈ st.1, v.2 = 0) →
      ∀ v ∈ (games.foldl (racsGameStep pow10 k c) st).1, v.2 = 0 := by
  induction games with
  | nil => intro st hst; simpa using hst
  | cons g t ih =>
    intro st hst
    simp only [List.foldl_cons]
    refine ih (fun g' hg' => h g' (List.mem_cons_of_mem _ hg')) _ ?_
    rcases h g (List.mem_cons_self _ _) with hg | hg
    · -- TIE: the step registers the players (zero deltas) and changes nothing
      have hreg : ∀ v ∈ (registerGamePlayers st g).1, v.2 = 0 := by
        unfold registerGamePlayers
        simp only [List.foldl_cons, List.foldl_nil]
        have step : ∀ (s : EngineState) (p : PlayerRating),
            (∀ v ∈ s.1, v.2 = 0) → ∀ v ∈ (registerPlayer s p).1, v.2 = 0 := by
          intro s p hs v hv
          unfold registerPlayer at hv
          split at hv
          · exact hs v hv
          · rcases List.mem_append.1 hv with h1 | h1
            · exact hs v h1
            · simp only [List.mem_singleton] at h1
              simp [h1]
        exact step _ _ (step _ _ (step _ _ (step _ _ hst)))
      simp only [racsGameStep, hg]
      simpa using hreg
    · simpa [racsGameStep_unset hg] using hst

/-- C8: in Rac's ELO, a batch whose non-UNSET games are all ties produces a
map in which every entry has `delta = 0` and
`rating_after = rating_before`. -/
theorem racs_tie_zero (pow10 : ℚ → ℚ) (k c : ℚ)
    (games : List GameForRating) (cur : Nat → Option ℚ)
    (h : ∀ g ∈ games, g.result = GameResult.TIE ∨ g.result = GameResult.UNSET) :
    ∀ e ∈ racsCalculateDeltas pow10 k c games cur,
      e.2.delta = 0 ∧ e.2.rating_after = e.2.rating_before := by
  intro e he
  have key := foldl_deltas_zero pow10 k c games h ([], []) (by simp)
  unfold racsCalculateDeltas buildResult at he
  rcases List.mem_map.1 he with ⟨v, hv, rfl⟩
  have hz := key v hv
  simp [hz]

theorem racs_tie_zero_witness :
    (∀ g ∈ [Fixtures.gTieC], g.result = GameResult.TIE ∨ g.result = GameResult.UNSET) ∧
    ∀ e ∈ racsCalculateDeltas Fixtures.pow10One 100 (3/10) [Fixtures.gTieC] (fun _ => none),
      e.2.delta = 0 ∧ e.2.rating_after = e.2.rating_before :=
  ⟨by with_unfolding_all decide,
   racs_tie_zero Fixtures.pow10One 100 (3/10) [Fixtures.gTieC] (fun _ => none)
     (by with_unfolding_all decide)⟩

end Ratings

namespace Ratings

theorem getVal_isSome_iff (l : List (Nat × α)) (k : Nat) :
    (getVal l k).isSome ↔ k ∈ l.map Prod.fst := by
  induction l with
  | nil => simp [getVal]
  | cons e t ih =>
    by_cases h : e.1 = k
    · simp [getVal, List.find?, h]
    · simp only [getVal, List.find?, beq_eq_false_iff_ne.2 h, List.map_cons,
        List.mem_cons, Ne.symm h, false_or]
      exact ih

theorem addDelta_cons (e : Nat × ℚ) (t : List (Nat × ℚ)) (k : Nat) (d : ℚ) :
    addDelta (e :: t) k d =
      (if e.1 = k then (e.1, e.2 + d) else e) :: addDelta t k d := by
  simp [addDelta, beq_iff_eq]

theorem addDelta_keys (l : List (Nat × ℚ)) (k : Nat) (d : ℚ) :
    (addDelta l k d).map Prod.fst = l.map Prod.fst := by
  induction l with
  | nil => rfl
  | cons e t ih =>
    rw [addDelta_cons]
    by_cases h : e.1 = k <;> simp [h, ih]

theorem addDelta_of_not_mem {l : List (Nat × ℚ)} {k : Nat} (d : ℚ)
    (hk : k ∉ l.map Prod.fst) : addDelta l k d = l := by
  induction l with
  | nil => rfl
  | cons e t ih =>
    simp only [List.map_cons, List.mem_cons, not_or] at hk
    rw [addDelta_cons, if_neg (Ne.symm hk.1), ih hk.2]

theorem addDelta_sum {l : List (Nat × ℚ)} {k : Nat} (d : ℚ)
    (hN : (l.map Prod.fst).Nodup) (hk : k ∈ l.map Prod.fst) :
    ((addDelta l k d).map (fun e => e.2)).sum = (l.map (fun e => e.2)).sum + d := by
  induction l with
  | nil => simp at hk
  | cons e t ih =>
    simp only [List.map_cons, List.nodup_cons] at hN
    rw [addDelta_cons]
    rcases List.mem_cons.1 hk with h | h
    · have ht : k ∉ t.map Prod.fst := h ▸ hN.1
      rw [if_pos h.symm, addDelta_of_not_mem d ht]
      simp only [List.map_cons, List.sum_cons]
      ring
    · have hek : ¬(e.1 = k) := fun he => hN.1 (he ▸ h)
      rw [if_neg hek]
      simp only [List.map_cons, List.sum_cons, ih hN.2 h]
      ring

theorem registerPlayer_inv {st : EngineState} (p : PlayerRating)
    (h : EngineInv st) : EngineInv (registerPlayer st p) := by
  unfold registerPlayer
  split
  · exact h
  · rename_i hns
    rw [getVal_isSome_iff] at hns
    refine ⟨by simp [h.1], ?_⟩
    simp [List.nodup_append, h.2, hns]

theorem registerPlayer_sum (st : EngineState) (p : PlayerRating) :
    ((registerPlayer st p).1.map (fun e => e.2)).sum = (st.1.map (fun e => e.2)).sum := by
  unfold registerPlayer
  split <;> simp

theorem registerPlayer_keys_mono {st : EngineState} (p : PlayerRating) {k : Nat}
    (h : k ∈ st.2.map Prod.fst) : k ∈ (registerPlayer st p).2.map Prod.fst := by
  unfold registerPlayer
  split
  · exact h
  · simp [h]

theorem registerPlayer_self_mem (st : EngineState) (p : PlayerRating) :
    p.player_id ∈ (registerPlayer st p).2.map Prod.fst := by
  unfold registerPlayer
  split
  · rename_i hs
    exact (getVal_isSome_iff _ _).1 hs
  · simp

theorem registerGamePlayers_inv {st : EngineState} (g : GameForRating)
    (h : EngineInv st) : EngineInv (registerGamePlayers st g) := by
  unfold registerGamePlayers
  simp only [List.foldl_cons, List.foldl_nil]
  exact registerPlayer_inv _ (registerPlayer_inv _ (registerPlayer_inv _ (registerPlayer_inv _ h)))

theorem registerGamePlayers_sum (st : EngineState) (g : GameForRating) :
    ((registerGamePlayers st g).1.map (fun e => e.2)).sum = (st.1.map (fun e => e.2)).sum := by
  unfold registerGamePlayers
  simp only [List.foldl_cons, List.foldl_nil]
  rw [registerPlayer_sum, registerPlayer_sum, registerPlayer_sum, registerPlayer_sum]

theorem registerGamePlayers_mem (st : EngineState) (g : GameForRating) :
    g.team1.1.player_id ∈ (registerGamePlayers st g).2.map Prod.fst ∧
    g.team1.2.player_id ∈ (registerGamePlayers st g).2.map Prod.fst ∧
    g.team2.1.player_id ∈ (registerGamePlayers st g).2.map Prod.fst ∧
    g.team2.2.player_id ∈ (registerGamePlayers st g).2.map Prod.fst := by
  unfold registerGamePlayers
  simp only [List.foldl_cons, List.foldl_nil]
  refine ⟨?_, ?_, ?_, ?_⟩
  · exact registerPlayer_keys_mono _ (registerPlayer_keys_mono _
      (registerPlayer_keys_mono _ (registerPlayer_self_mem _ _)))
  · exact registerPlayer_keys_mono _ (registerPlayer_keys_mono _
      (registerPlayer_self_mem _ _))
  · exact registerPlayer_keys_mono _ (registerPlayer_self_mem _ _)
  · exact registerPlayer_self_mem _ _

theorem seriousGameStep_inv_sum (pow10 : ℚ → ℚ) (k c : ℚ)
    {st : EngineState} (g : GameForRating) (h : EngineInv st) :
    EngineInv (seriousGameStep pow10 k c st g) ∧
    ((seriousGameStep pow10 k c st g).1.map (fun e => e.2)).sum =
      (st.1.map (fun e => e.2)).sum := by
  unfold seriousGameStep
  split
  · exact ⟨h, rfl⟩
  · have hinv := registerGamePlayers_inv g h
    have hmem := registerGamePlayers_mem st g
    set st' := registerGamePlayers st g with hst'
    have hN : (st'.1.map Prod.fst).Nodup := hinv.1 ▸ hinv.2
    have k1 : g.team1.1.player_id ∈ st'.1.map Prod.fst := hinv.1 ▸ hmem.1
    have k2 : g.team1.2.player_id ∈ st'.1.map Prod.fst := hinv.1 ▸ hmem.2.1
    have k3 : g.team2.1.player_id ∈ st'.1.map Prod.fst := hinv.1 ▸ hmem.2.2.1
    have k4 : g.team2.2.player_id ∈ st'.1.map Prod.fst := hinv.1 ▸ hmem.2.2.2
    constructor
    · refine ⟨?_, hinv.2⟩
      simp only [addDelta_keys]
      exact hinv.1
    · rw [addDelta_sum _ (by simp only [addDelta_keys]; exact hN)
          (by simp only [addDelta_keys]; exact k4),
        addDelta_sum _ (by simp only [addDelta_keys]; exact hN)
          (by simp only [addDelta_keys]; exact k3),
        addDelta_sum _ (by simp only [addDelta_keys]; exact hN)
          (by simp only [addDelta_keys]; exact k2),
        addDelta_sum _ hN k1,
        registerGamePlayers_sum]
      ring

theorem sumDeltas_buildResult (deltas : List (Nat × ℚ))
    (info : List (Nat × PlayerRating)) (cur : Nat → Option ℚ) :
    sumDeltas (buildResult deltas info cur) = (deltas.map (fun e => e.2)).sum := by
  simp only [sumDeltas, buildResult, List.map_map]
  rfl

/-- C4: Serious ELO is zero-sum — the returned deltas of any batch of
scored four-player games sum to zero, and in a single game both team-1
players receive `+Δ = k · (A₁ − E₁)` while both team-2 players receive
`−Δ`. -/
theorem serious_zero_sum :
    (∀ (pow10 : ℚ → ℚ) (k c : ℚ) (games : List GameForRating) (cur : Nat → Option ℚ),
      (∀ g ∈ games, fourDistinct g ∧ g.result ≠ GameResult.UNSET) →
      sumDeltas (seriousCalculateDeltas pow10 k c games cur) = 0) ∧
    (∀ (pow10 : ℚ → ℚ) (k c : ℚ) (g : GameForRating) (cur : Nat → Option ℚ),
      fourDistinct g → g.result ≠ GameResult.UNSET →
      lookupDelta (seriousCalculateDeltas pow10 k c [g] cur) g.team1.1.player_id =
        some (k * (getActualScore g.result true -
          getExpectedScore pow10 c (getTeamAverage g.team1.1 g.team1.2)
            (getTeamAverage g.team2.1 g.team2.2))) ∧
      lookupDelta (seriousCalculateDeltas pow10 k c [g] cur) g.team1.2.player_id =
        some (k * (getActualScore g.result true -
          getExpectedScore pow10 c (getTeamAverage g.team1.1 g.team1.2)
            (getTeamAverage g.team2.1 g.team2.2))) ∧
      lookupDelta (seriousCalculateDeltas pow10 k c [g] cur) g.team2.1.player_id =
        some (-(k * (getActualScore g.result true -
          getExpectedScore pow10 c (getTeamAverage g.team1.1 g.team1.2)
            (getTeamAverage g.team2.1 g.team2.2)))) ∧
      lookupDelta (seriousCalculateDeltas pow10 k c [g] cur) g.team2.2.player_id =
        some (-(k * (getActualScore g.result true -
          getExpectedScore pow10 c (getTeamAverage g.team1.1 g.team1.2)
            (getTeamAverage g.team2.1 g.team2.2))))) := by
  constructor
  · intro pow10 k c games cur _
    have aux : ∀ (gs : List GameForRating) (st : EngineState), EngineInv st →
        ((gs.foldl (seriousGameStep pow10 k c) st).1.map (fun e => e.2)).sum =
          (st.1.map (fun e => e.2)).sum := by
      intro gs
      induction gs with
      | nil => intro st _; rfl
      | cons g t ih =>
        intro st hst
        simp only [List.foldl_cons]
        rw [ih _ (seriousGameStep_inv_sum pow10 k c g hst).1,
          (seriousGameStep_inv_sum pow10 k c g hst).2]
    unfold seriousCalculateDeltas
    rw [sumDeltas_buildResult, aux games ([], []) ⟨rfl, List.nodup_nil⟩]
    rfl
  · intro pow10 k c g cur hdist hres
    obtain ⟨⟨p1, p2⟩, ⟨p3, p4⟩, res, s1, s2⟩ := g
    simp only [fourDistinct] at hdist
    have hd1 := List.nodup_cons.1 hdist
    have hd2 := List.nodup_cons.1 hd1.2
    have hd3 := List.nodup_cons.1 hd2.2
    have h12 : p1.player_id ≠ p2.player_id := fun h => hd1.1 (by simp [h])
    have h13 : p1.player_id ≠ p3.player_id := fun h => hd1.1 (by simp [h])
    have h14 : p1.player_id ≠ p4.player_id := fun h => hd1.1 (by simp [h])
    have h23 : p2.player_id ≠ p3.player_id := fun h => hd2.1 (by simp [h])
    have h24 : p2.player_id ≠ p4.player_id := fun h => hd2.1 (by simp [h])
    have h34 : p3.player_id ≠ p4.player_id := fun h => hd3.1 (by simp [h])
    simp only [seriousCalculateDeltas, List.foldl_cons, List.foldl_nil,
      seriousGameStep, hres, if_false, registerGamePlayers, registerPlayer,
      getVal, List.find?, List.append_nil, List.nil_append]
    simp [beq_eq_false_iff_ne.2 h12, beq_eq_false_iff_ne.2 h13, beq_eq_false_iff_ne.2 h14,
      beq_eq_false_iff_ne.2 h23, beq_eq_false_iff_ne.2 h24, beq_eq_false_iff_ne.2 h34,
      beq_eq_false_iff_ne.2 (Ne.symm h12), beq_eq_false_iff_ne.2 (Ne.symm h13),
      beq_eq_false_iff_ne.2 (Ne.symm h14), beq_eq_false_iff_ne.2 (Ne.symm h23),
      beq_eq_false_iff_ne.2 (Ne.symm h24), beq_eq_false_iff_ne.2 (Ne.symm h34),
      h12, h13, h14, h23, h24, h34, Ne.symm h12, Ne.symm h13, Ne.symm h14,
      Ne.symm h23, Ne.symm h24, Ne.symm h34,
      addDelta, buildResult, lookupDelta, getVal, List.find?]

theorem serious_zero_sum_witness :
    (∀ g ∈ [Fixtures.gWinC], fourDistinct g ∧ g.result ≠ GameResult.UNSET) ∧
    sumDeltas (seriousCalculateDeltas Fixtures.pow10One 32 400 [Fixtures.gWinC]
      (fun _ => none)) = 0 :=
  ⟨by with_unfolding_all decide,
   serious_zero_sum.1 Fixtures.pow10One 32 400 [Fixtures.gWinC] (fun _ => none)
     (by with_unfolding_all decide)⟩

end Ratings

namespace Ratings

theorem getExpectedScore_bounds (pow10 : ℚ → ℚ) (hpow : ∀ x, 0 < pow10 x)
    (c ra rb : ℚ) :
    0 < getExpectedScore pow10 c ra rb ∧ getExpectedScore pow10 c ra rb < 1 := by
  unfold getExpectedScore
  have h := hpow ((rb - ra) / c)
  constructor
  · exact div_pos one_pos (by linarith)
  · rw [div_lt_one (by linarith)]
    linarith

/-- C7: the Catch-Up per-game contribution is the Serious-ELO base delta
fed through `_adjust_delta` at the player's current rating and the batch
median: a winner below the median is boosted by `1 + 0.50·|d|·2`, a winner
at or above it is reduced by `1 − 0.30·|d|·2`, a loser above it is
penalised by `1 + 0.20·|d|·2`, a loser at or below it is unchanged, and a
zero median disables the adjustment (`d` is the clamped relative distance
from the median). -/
theorem catch_up_adjustment :
    (∀ (pow10 : ℚ → ℚ), (∀ x, 0 < pow10 x) → ∀ k c : ℚ, 0 < k →
      ∀ (p1 p2 p3 p4 : PlayerRating) (s1 s2 : Option ℚ) (cur : Nat → Option ℚ)
        (m base : ℚ),
      fourDistinct ⟨(p1, p2), (p3, p4), GameResult.TEAM1_WIN, s1, s2⟩ →
      m = medianRating (gameRatings ⟨(p1, p2), (p3, p4), GameResult.TEAM1_WIN, s1, s2⟩ cur) →
      base = k * (1 - getExpectedScore pow10 c (getTeamAverage p1 p2) (getTeamAverage p3 p4)) →
      0 < base ∧
      lookupDelta (catchUpCalculateDeltas pow10 k c
          [⟨(p1, p2), (p3, p4), GameResult.TEAM1_WIN, s1, s2⟩] cur) p1.player_id =
        some (adjustDelta base ((cur p1.player_id).getD p1.rating) m) ∧
      lookupDelta (catchUpCalculateDeltas pow10 k c
          [⟨(p1, p2), (p3, p4), GameResult.TEAM1_WIN, s1, s2⟩] cur) p2.player_id =
        some (adjustDelta base ((cur p2.player_id).getD p2.rating) m) ∧
      lookupDelta (catchUpCalculateDeltas pow10 k c
          [⟨(p1, p2), (p3, p4), GameResult.TEAM1_WIN, s1, s2⟩] cur) p3.player_id =
        some (adjustDelta (-base) ((cur p3.player_id).getD p3.rating) m) ∧
      lookupDelta (catchUpCalculateDeltas pow10 k c
          [⟨(p1, p2), (p3, p4), GameResult.TEAM1_WIN, s1, s2⟩] cur) p4.player_id =
        some (adjustDelta (-base) ((cur p4.player_id).getD p4.rating) m)) ∧
    (∀ (pow10 : ℚ → ℚ), (∀ x, 0 < pow10 x) → ∀ k c : ℚ, 0 < k →
      ∀ (p1 p2 p3 p4 : PlayerRating) (s1 s2 : Option ℚ) (cur : Nat → Option ℚ)
        (m base : ℚ),
      fourDistinct ⟨(p1, p2), (p3, p4), GameResult.TEAM2_WIN, s1, s2⟩ →
      m = medianRating (gameRatings ⟨(p1, p2), (p3, p4), GameResult.TEAM2_WIN, s1, s2⟩ cur) →
      base = k * (0 - getExpectedScore pow10 c (getTeamAverage p1 p2) (getTeamAverage p3 p4)) →
      base < 0 ∧
      lookupDelta (catchUpCalculateDeltas pow10 k c
          [⟨(p1, p2), (p3, p4), GameResult.TEAM2_WIN, s1, s2⟩] cur) p1.player_id =
        some (adjustDelta base ((cur p1.player_id).getD p1.rating) m) ∧
      lookupDelta (catchUpCalculateDeltas pow10 k c
          [⟨(p1, p2), (p3, p4), GameResult.TEAM2_WIN, s1, s2⟩] cur) p2.player_id =
        some (adjustDelta base ((cur p2.player_id).getD p2.rating) m) ∧
      lookupDelta (catchUpCalculateDeltas pow10 k c
          [⟨(p1, p2), (p3, p4), GameResult.TEAM2_WIN, s1, s2⟩] cur) p3.player_id =
        some (adjustDelta (-base) ((cur p3.player_id).getD p3.rating) m) ∧
      lookupDelta (catchUpCalculateDeltas pow10 k c
          [⟨(p1, p2), (p3, p4), GameResult.TEAM2_WIN, s1, s2⟩] cur) p4.player_id =
        some (adjustDelta (-base) ((cur p4.player_id).getD p4.rating) m)) ∧
    (∀ b r m : ℚ, m ≠ 0 → 0 < b →
      (r < m → adjustDelta b r m =
        b * (1 + gainBoostMax * pyAbs (pyMax (-(1/2)) (pyMin (1/2) ((r - m) / m))) * 2)) ∧
      (¬ r < m → adjustDelta b r m =
        b * (1 - gainReductionMax * pyAbs (pyMax (-(1/2)) (pyMin (1/2) ((r - m) / m))) * 2))) ∧
    (∀ b r m : ℚ, m ≠ 0 → b < 0 →
      (m < r → adjustDelta b r m =
        b * (1 + lossPenaltyMax * pyAbs (pyMax (-(1/2)) (pyMin (1/2) ((r - m) / m))) * 2)) ∧
      (¬ m < r → adjustDelta b r m = b)) ∧
    (∀ b r : ℚ, adjustDelta b r 0 = b) := by
  refine ⟨?_, ?_, ?_, ?_, ?_⟩
  · intro pow10 hpow k c hk p1 p2 p3 p4 s1 s2 cur m base hdist hm hbase
    simp only [fourDistinct] at hdist
    have hd1 := List.nodup_cons.1 hdist
    have hd2 := List.nodup_cons.1 hd1.2
    have hd3 := List.nodup_cons.1 hd2.2
    have h12 : p1.player_id ≠ p2.player_id := fun h => hd1.1 (by simp [h])
    have h13 : p1.player_id ≠ p3.player_id := fun h => hd1.1 (by simp [h])
    have h14 : p1.player_id ≠ p4.player_id := fun h => hd1.1 (by simp [h])
    have h23 : p2.player_id ≠ p3.player_id := fun h => hd2.1 (by simp [h])
    have h24 : p2.player_id ≠ p4.player_id := fun h => hd2.1 (by simp [h])
    have h34 : p3.player_id ≠ p4.player_id := fun h => hd3.1 (by simp [h])
    constructor
    · have hE := getExpectedScore_bounds pow10 hpow c (getTeamAverage p1 p2)
        (getTeamAverage p3 p4)
      rw [hbase]
      exact mul_pos hk (by linarith [hE.2])
    · subst hm hbase
      simp only [catchUpCalculateDeltas, collectPlayers, List.foldl_cons, List.foldl_nil,
        catchUpGameStep, registerGamePlayers, registerPlayer, getVal, List.find?,
        List.append_nil, List.nil_append]
      simp [beq_eq_false_iff_ne.2 h12, beq_eq_false_iff_ne.2 h13, beq_eq_false_iff_ne.2 h14,
        beq_eq_false_iff_ne.2 h23, beq_eq_false_iff_ne.2 h24, beq_eq_false_iff_ne.2 h34,
        beq_eq_false_iff_ne.2 (Ne.symm h12), beq_eq_false_iff_ne.2 (Ne.symm h13),
        beq_eq_false_iff_ne.2 (Ne.symm h14), beq_eq_false_iff_ne.2 (Ne.symm h23),
        beq_eq_false_iff_ne.2 (Ne.symm h24), beq_eq_false_iff_ne.2 (Ne.symm h34),
        h12, h13, h14, h23, h24, h34, Ne.symm h12, Ne.symm h13, Ne.symm h14,
        Ne.symm h23, Ne.symm h24, Ne.symm h34,
        addDelta, buildResult, lookupDelta, getVal, List.find?,
        getActualScore, gameRatings]
  · intro pow10 hpow k c hk p1 p2 p3 p4 s1 s2 cur m base hdist hm hbase
    simp only [fourDistinct] at hdist
    have hd1 := List.nodup_cons.1 hdist
    have hd2 := List.nodup_cons.1 hd1.2
    have hd3 := List.nodup_cons.1 hd2.2
    have h12 : p1.player_id ≠ p2.player_id := fun h => hd1.1 (by simp [h])
    have h13 : p1.player_id ≠ p3.player_id := fun h => hd1.1 (by simp [h])
    have h14 : p1.player_id ≠ p4.player_id := fun h => hd1.1 (by simp [h])
    have h23 : p2.player_id ≠ p3.player_id := fun h => hd2.1 (by simp [h])
    have h24 : p2.player_id ≠ p4.player_id := fun h => hd2.1 (by simp [h])
    have h34 : p3.player_id ≠ p4.player_id := fun h => hd3.1 (by simp [h])
    constructor
    · have hE := getExpectedScore_bounds pow10 hpow c (getTeamAverage p1 p2)
        (getTeamAverage p3 p4)
      rw [hbase]
      have : 0 - getExpectedScore pow10 c (getTeamAverage p1 p2) (getTeamAverage p3 p4) < 0 := by
        linarith [hE.1]
      exact mul_neg_of_pos_of_neg hk this
    · subst hm hbase
      simp only [catchUpCalculateDeltas, collectPlayers, List.foldl_cons, List.foldl_nil,
        catchUpGameStep, registerGamePlayers, registerPlayer, getVal, List.find?,
        List.append_nil, List.nil_append]
      simp [beq_eq_false_iff_ne.2 h12, beq_eq_false_iff_ne.2 h13, beq_eq_false_iff_ne.2 h14,
        beq_eq_false_iff_ne.2 h23, beq_eq_false_iff_ne.2 h24, beq_eq_false_iff_ne.2 h34,
        beq_eq_false_iff_ne.2 (Ne.symm h12), beq_eq_false_iff_ne.2 (Ne.symm h13),
        beq_eq_false_iff_ne.2 (Ne.symm h14), beq_eq_false_iff_ne.2 (Ne.symm h23),
        beq_eq_false_iff_ne.2 (Ne.symm h24), beq_eq_false_iff_ne.2 (Ne.symm h34),
        h12, h13, h14, h23, h24, h34, Ne.symm h12, Ne.symm h13, Ne.symm h14,
        Ne.symm h23, Ne.symm h24, Ne.symm h34,
        addDelta, buildResult, lookupDelta, getVal, List.find?,
        getActualScore, gameRatings]
  · intro b r m hm hb
    exact ⟨fun hr => by simp [adjustDelta, hm, hb, hr],
      fun hr => by simp [adjustDelta, hm, hb, hr]⟩
  · intro b r m hm hb
    exact ⟨fun hr => by simp [adjustDelta, hm, not_lt.2 hb.le, hr],
      fun hr => by simp [adjustDelta, hm, not_lt.2 hb.le, hr]⟩
  · intro b r
    simp [adjustDelta]

theorem catch_up_adjustment_witness :
    ((∀ x, (0:ℚ) < Fixtures.pow10One x) ∧ (0:ℚ) < 32 ∧
      fourDistinct Fixtures.gCatchC ∧
      (1000:ℚ) ≠ 0 ∧ (800:ℚ) < 1000) ∧
    lookupDelta (catchUpCalculateDeltas Fixtures.pow10One 32 400 [Fixtures.gCatchC]
        (fun _ => none)) 1 =
      some (adjustDelta
        (32 * (1 - getExpectedScore Fixtures.pow10One 400 (getTeamAverage ⟨1, 800, ""⟩ ⟨2, 900, ""⟩)
          (getTeamAverage ⟨3, 1100, ""⟩ ⟨4, 1200, ""⟩)))
        800 (medianRating (gameRatings Fixtures.gCatchC (fun _ => none)))) ∧
    adjustDelta 32 800 1000 =
      32 * (1 + gainBoostMax * pyAbs (pyMax (-(1/2)) (pyMin (1/2) (((800:ℚ) - 1000) / 1000))) * 2) :=
  ⟨⟨fun _ => one_pos, by norm_num, by with_unfolding_all decide, by norm_num, by norm_num⟩,
   (catch_up_adjustment.1 Fixtures.pow10One (fun _ => one_pos) 32 400 (by norm_num)
     ⟨1, 800, ""⟩ ⟨2, 900, ""⟩ ⟨3, 1100, ""⟩ ⟨4, 1200, ""⟩ none none (fun _ => none)
     (medianRating (gameRatings Fixtures.gCatchC (fun _ => none)))
     (32 * (1 - getExpectedScore Fixtures.pow10One 400 (getTeamAverage ⟨1, 800, ""⟩ ⟨2, 900, ""⟩)
       (getTeamAverage ⟨3, 1100, ""⟩ ⟨4, 1200, ""⟩)))
     (by with_unfolding_all decide) rfl rfl).2.1,
   (catch_up_adjustment.2.2.1 32 800 1000 (by norm_num) (by norm_num)).1 (by norm_num)⟩

end Ratings

namespace Replay

theorem processRounds_spec (engine : Engine) :
    ∀ (rounds : List (List RGame)) (cur : RMap) (i : Nat),
      (processRounds engine rounds cur).1.get? i =
        (rounds.get? i).map (fun rg =>
          roundSnapshots (processRounds engine (rounds.take i) cur).2 rg) ∧
      ∀ rg, rounds.get? i = some rg →
        (processRounds engine (rounds.take (i + 1)) cur).2 =
          (processRound engine (processRounds engine (rounds.take i) cur).2 rg).2 := by
  intro rounds
  induction rounds with
  | nil => intro cur i; simp [processRounds]
  | cons r rs ih =>
    intro cur i
    cases i with
    | zero =>
      constructor
      · simp only [processRounds, List.get?, List.take, Option.map_some]
        rfl
      · intro rg hrg
        simp only [List.get?] at hrg
        cases hrg
        simp [processRounds]
    | succ i =>
      constructor
      · have := (ih (processRound engine cur r).2 i).1
        simpa [processRounds] using this
      · intro rg hrg
        simp only [List.get?] at hrg
        have := (ih (processRound engine cur r).2 i).2 rg hrg
        simpa [processRounds] using this

/-- C6: within one replay round, every persisted `team1_elo`/`team2_elo`
snapshot is the mean of that team's two players' in-memory ratings as they
stood before any of the round's deltas were applied; the round's deltas are
applied to the rating map only after the whole round's snapshots are
computed from the pre-round map. -/
theorem round_snapshot_pre_round (engine : Engine) (games : List RGame)
    (cur : RMap) (i : Nat) :
    (recalcEvent engine games cur).1.get? i =
      ((groupRounds games).get? i).map (fun rg =>
        roundSnapshots (processRounds engine ((groupRounds games).take i) cur).2 rg) ∧
    ∀ rg, (groupRounds games).get? i = some rg →
      (processRounds engine ((groupRounds games).take (i + 1)) cur).2 =
        (processRound engine
          (processRounds engine ((groupRounds games).take i) cur).2 rg).2 :=
  processRounds_spec engine (groupRounds games) cur i

theorem round_snapshot_pre_round_witness :
    (Replay.groupRounds [Fixtures.rgameC]).get? 0 = some [Fixtures.rgameC] ∧
    (processRounds Fixtures.engineC ((groupRounds [Fixtures.rgameC]).take 1) Fixtures.curC).2 =
      (processRound Fixtures.engineC
        (processRounds Fixtures.engineC ((groupRounds [Fixtures.rgameC]).take 0) Fixtures.curC).2
        [Fixtures.rgameC]).2 :=
  ⟨by with_unfolding_all decide,
   (round_snapshot_pre_round Fixtures.engineC [Fixtures.rgameC] Fixtures.curC 0).2
     [Fixtures.rgameC] (by with_unfolding_all decide)⟩

end Replay

namespace Swap

/-- C9 evidence: the swap succeeds non-blocking and transitions the event
to IN_PROGRESS, but the returned warnings list is the literal empty list
even though the swap introduces a previous-event teammate pair — which the
(never-invoked) `check_swap_warnings` would report. -/
theorem swap_warnings_never_populated :
    swapPlayers EventStatus.GENERATED [Fixtures.gA, Fixtures.gB] 0 2 5 =
      Except.ok ([⟨1, 0, 0, 1, 5, 3, 4, true⟩, ⟨2, 0, 1, 2, 6, 7, 8, true⟩],
        EventStatus.IN_PROGRESS, ⟨true, []⟩) ∧
    MM.checkSwapWarnings {} {{1, 5}} (toMMGame ⟨1, 0, 0, 1, 5, 3, 4, true⟩) =
      ["Swap creates teammate repeat from previous event"] := by
  constructor
  · with_unfolding_all rfl
  · with_unfolding_all decide

end Swap

namespace MM

/-- C10 counterexample: the relative-imbalance formula is also evaluated
when the maximum team rating is negative (nonzero), so "only evaluated when
the maximum team rating is strictly positive" does not hold. -/
theorem balance_guard_counterexample :
    balanceFormulaUsed (-1) (-2) = true ∧ ¬ (0 < pyMax (-1 : ℚ) (-2)) := by
  constructor
  · with_unfolding_all decide
  · with_unfolding_all decide

/-- C10 (amended): `check_rating_balance` is total; when
`max(team1_rating, team2_rating) = 0` it returns `True` without evaluating
the division, so the relative-imbalance formula is only evaluated when the
maximum team rating is nonzero — never dividing by zero. -/
theorem balance_guard (team1_rating team2_rating elo_diff : ℚ) :
    (pyMax team1_rating team2_rating = 0 →
      checkRatingBalance team1_rating team2_rating elo_diff = true) ∧
    (pyMax team1_rating team2_rating ≠ 0 →
      checkRatingBalance team1_rating team2_rating elo_diff =
        decide (pyAbs (team1_rating - team2_rating) / pyMax team1_rating team2_rating ≤
          elo_diff)) := by
  constructor
  · intro h
    simp [checkRatingBalance, h]
  · intro h
    simp [checkRatingBalance, h]

theorem balance_guard_witness :
    checkRatingBalance 0 0 (1/10) = true ∧
    checkRatingBalance 1000 900 (5/100) =
      decide (pyAbs ((1000:ℚ) - 900) / pyMax 1000 900 ≤ 5/100) :=
  ⟨(balance_guard 0 0 (1/10)).1 (by with_unfolding_all decide),
   (balance_guard 1000 900 (5/100)).2 (by with_unfolding_all decide)⟩

end MM

namespace MM

/-- C3: when a packing attempt fails with the hard-constraint failure
class, the relaxation loop returns failure immediately with the distinct
hard-constraints error; `elo_diff_used` is not widened and the relax
iteration count is not incremented, whatever the current loop state —
relaxation only ever happens on the rating failure class. -/
theorem hard_constraint_fails_fast
    (shuffle : Nat → Nat → Nat → List Match → List Match)
    (cfg : ConstraintConfig) (prev : Finset (Finset Nat))
    (players : List MPlayer) (courts rounds fuel attempts relax_iterations : Nat)
    (current_elo_diff : ℚ)
    (h : tryGenerate (shuffle relax_iterations) cfg prev players courts rounds
        current_elo_diff = ([], false, some FailReason.hard_constraints)) :
    generateAux shuffle cfg prev players courts rounds (fuel + 1) attempts
        relax_iterations current_elo_diff =
      some ⟨false, [], cfg.elo_diff, current_elo_diff, relax_iterations,
        attempts + 1, some GenErrorKind.hard_constraints_unsat⟩ := by
  simp [generateAux, h]

theorem hard_constraint_fails_fast_witness :
    tryGenerate (Fixtures.idShuffle 0) {} Fixtures.prevAllC Fixtures.players4C 1 1 (5/100) =
      ([], false, some FailReason.hard_constraints) ∧
    generateAux Fixtures.idShuffle {} Fixtures.prevAllC Fixtures.players4C 1 1 1 0 0 (5/100) =
      some ⟨false, [], (5:ℚ)/100, 5/100, 0, 1, some GenErrorKind.hard_constraints_unsat⟩ :=
  ⟨by with_unfolding_all decide,
   hard_constraint_fails_fast Fixtures.idShuffle {} Fixtures.prevAllC Fixtures.players4C
     1 1 0 0 0 (5/100) (by with_unfolding_all decide)⟩

end MM

namespace MM

theorem pairsOf_mem {α : Type _} {l : List α} {t : α × α} (ht : t ∈ pairsOf l) :
    t.1 ∈ l ∧ t.2 ∈ l := by
  induction l with
  | nil => simp [pairsOf] at ht
  | cons x xs ih =>
    simp only [pairsOf, List.mem_append, List.mem_map] at ht
    rcases ht with ⟨y, hy, rfl⟩ | h
    · exact ⟨List.mem_cons_self _ _, List.mem_cons_of_mem _ hy⟩
    · exact ⟨List.mem_cons_of_mem _ (ih h).1, List.mem_cons_of_mem _ (ih h).2⟩

theorem pairsOf_ne {l : List MPlayer} (h : (l.map MPlayer.id).Nodup)
    {t : MPlayer × MPlayer} (ht : t ∈ pairsOf l) : t.1.id ≠ t.2.id := by
  induction l with
  | nil => simp [pairsOf] at ht
  | cons x xs ih =>
    simp only [List.map_cons, List.nodup_cons] at h
    simp only [pairsOf, List.mem_append, List.mem_map] at ht
    rcases ht with ⟨y, hy, rfl⟩ | hm
    · intro he
      exact h.1 (he ▸ List.mem_map_of_mem MPlayer.id hy)
    · exact ih h.2 hm

theorem validMatches_ok {players : List MPlayer}
    (hnodup : (players.map MPlayer.id).Nodup) (elo_diff : ℚ) :
    ∀ m ∈ validMatches players elo_diff, MatchOK players m := by
  intro m hm
  simp only [validMatches, List.mem_flatMap, List.mem_filterMap] at hm
  obtain ⟨t1, ht1, t2, ht2, hf⟩ := hm
  by_cases hov : ({t1.1.id, t1.2.id} ∩ {t2.1.id, t2.2.id} : Finset Nat).Nonempty
  · simp [hov] at hf
  · simp only [hov, if_false] at hf
    split at hf
    · cases hf
      have h1 := pairsOf_ne hnodup ht1
      have h2 := pairsOf_ne hnodup ht2
      have hmem1 := pairsOf_mem ht1
      have hmem2 := pairsOf_mem ht2
      have hemp : ({t1.1.id, t1.2.id} ∩ {t2.1.id, t2.2.id} : Finset Nat) = ∅ :=
        Finset.not_nonempty_iff_eq_empty.1 hov
      have hcross : ∀ a ∈ ({t1.1.id, t1.2.id} : Finset Nat),
          a ∉ ({t2.1.id, t2.2.id} : Finset Nat) := by
        intro a ha hb
        exact absurd (Finset.mem_inter.2 ⟨ha, hb⟩) (by simp [hemp])
      have h13 : t1.1.id ≠ t2.1.id := fun h =>
        hcross t1.1.id (by simp) (by simp [h])
      have h14 : t1.1.id ≠ t2.2.id := fun h =>
        hcross t1.1.id (by simp) (by simp [h])
      have h23 : t1.2.id ≠ t2.1.id := fun h =>
        hcross t1.2.id (by simp) (by simp [h])
      have h24 : t1.2.id ≠ t2.2.id := fun h =>
        hcross t1.2.id (by simp) (by simp [h])
      constructor
      · simp [matchIdList, List.nodup_cons, h1, h13, h14, h23, h24, h2]
      · intro x hx
        simp only [matchIdList, List.mem_cons, List.not_mem_nil, or_false] at hx
        rcases hx with rfl | rfl | rfl | rfl
        · exact List.mem_toFinset.2 (List.mem_map_of_mem MPlayer.id hmem1.1)
        · exact List.mem_toFinset.2 (List.mem_map_of_mem MPlayer.id hmem1.2)
        · exact List.mem_toFinset.2 (List.mem_map_of_mem MPlayer.id hmem2.1)
        · exact List.mem_toFinset.2 (List.mem_map_of_mem MPlayer.id hmem2.2)
    · cases hf

end MM

namespace MM

theorem countOpp_append (l1 l2 : List Game) (p : Finset Nat) :
    countOpp (l1 ++ l2) p = countOpp l1 p + countOpp l2 p := by
  simp [countOpp, List.filter_append]

theorem countOpp_singleton (g : Game) (p : Finset Nat) :
    countOpp [g] p = if p ∈ g.opponentPairs then 1 else 0 := by
  by_cases h : p ∈ g.opponentPairs <;> simp [countOpp, List.filter, h]

theorem checkHardConstraints_opp {cfg : ConstraintConfig} {prev : Finset (Finset Nat)}
    {game : Game} {T : Finset (Finset Nat)} {O : Finset Nat → Nat}
    (h : checkHardConstraints cfg prev game T O = true)
    (hflag : cfg.no_repeat_opponent_in_event = true) :
    ∀ p ∈ game.opponentPairs, O p < 2 := by
  unfold checkHardConstraints at h
  rw [Bool.and_eq_true] at h
  rcases h with ⟨_, h2⟩
  unfold checkOpponentConstraint at h2
  simp [hflag] at h2
  exact h2

end MM

namespace MM

theorem selectLoop_spec (cfg : ConstraintConfig) (prev : Finset (Finset Nat))
    (players : List MPlayer) (courts round_idx : Nat)
    (evT : Finset (Finset Nat)) (evO : Finset Nat → Nat) :
    ∀ (pool : List Match) (st : SelState) (gs : List Game),
      (∀ m ∈ pool, MatchOK players m) →
      (∀ g ∈ st.selected, g.round_index = round_idx ∧ GameOK players g) →
      (∀ p, p ∈ st.used ↔ ∃ g ∈ st.selected, p ∈ g.allPlayers) →
      List.Pairwise (fun g1 g2 => Disjoint g1.allPlayers g2.allPlayers) st.selected →
      (∀ p, st.roundOpp p = countOpp st.selected p) →
      (cfg.no_repeat_opponent_in_event = true → ∀ p, evO p + st.roundOpp p ≤ 2) →
      selectLoop cfg prev courts round_idx evT evO pool st = some gs →
      gs.length = courts ∧
      (∀ g ∈ gs, g.round_index = round_idx ∧ GameOK players g) ∧
      List.Pairwise (fun g1 g2 => Disjoint g1.allPlayers g2.allPlayers) gs ∧
      (cfg.no_repeat_opponent_in_event = true → ∀ p, evO p + countOpp gs p ≤ 2) := by
  intro pool
  induction pool with
  | nil =>
    intro st gs _ _ _ _ _ _ hsel
    simp [selectLoop] at hsel
  | cons m rest ih =>
    intro st gs hpool hgood hused hdisj hcnt hbound hsel
    by_cases hov : (({m.1.1, m.1.2, m.2.1, m.2.2} : Finset Nat) ∩ st.used).Nonempty
    · rw [show selectLoop cfg prev courts round_idx evT evO (m :: rest) st =
          selectLoop cfg prev courts round_idx evT evO rest st by
        simp only [selectLoop, hov, if_true, ite_true]] at hsel
      exact ih st gs (fun m' hm' => hpool m' (List.mem_cons_of_mem _ hm'))
        hgood hused hdisj hcnt hbound hsel
    · have hmOK := hpool m (List.mem_cons_self _ _)
      cases hhc : checkHardConstraints cfg prev ⟨round_idx, st.selected.length, m.1, m.2⟩
          (evT ∪ st.roundTeammates) (fun p => evO p + st.roundOpp p) with
      | false =>
        rw [show selectLoop cfg prev courts round_idx evT evO (m :: rest) st =
            selectLoop cfg prev courts round_idx evT evO rest st by
          simp only [selectLoop, hov, hhc, Bool.not_false, if_true, ite_true,
            if_false, ite_false]] at hsel
        exact ih st gs (fun m' hm' => hpool m' (List.mem_cons_of_mem _ hm'))
          hgood hused hdisj hcnt hbound hsel
      | true =>
        have hgameOK : GameOK players ⟨round_idx, st.selected.length, m.1, m.2⟩ :=
          ⟨hmOK.1, hmOK.2⟩
        have hAll : (Game.allPlayers ⟨round_idx, st.selected.length, m.1, m.2⟩) =
            ({m.1.1, m.1.2, m.2.1, m.2.2} : Finset Nat) := rfl
        have hdnew : Disjoint ({m.1.1, m.1.2, m.2.1, m.2.2} : Finset Nat) st.used := by
          rw [Finset.disjoint_iff_inter_eq_empty]
          exact Finset.not_nonempty_iff_eq_empty.1 hov
        have hgood' : ∀ g ∈ st.selected ++ [(⟨round_idx, st.selected.length, m.1, m.2⟩ : Game)],
            g.round_index = round_idx ∧ GameOK players g := by
          intro g hg
          rcases List.mem_append.1 hg with hg | hg
          · exact hgood g hg
          · simp only [List.mem_singleton] at hg
            subst hg
            exact ⟨rfl, hgameOK⟩
        have hused' : ∀ p, p ∈ st.used ∪ ({m.1.1, m.1.2, m.2.1, m.2.2} : Finset Nat) ↔
            ∃ g ∈ st.selected ++ [(⟨round_idx, st.selected.length, m.1, m.2⟩ : Game)],
              p ∈ g.allPlayers := by
          intro p
          rw [Finset.mem_union]
          constructor
          · rintro (hp | hp)
            · obtain ⟨g, hg, hpg⟩ := (hused p).1 hp
              exact ⟨g, List.mem_append.2 (Or.inl hg), hpg⟩
            · exact ⟨_, List.mem_append.2 (Or.inr (List.mem_singleton_self _)), hp⟩
          · rintro ⟨g, hg, hpg⟩
            rcases List.mem_append.1 hg with hg | hg
            · exact Or.inl ((hused p).2 ⟨g, hg, hpg⟩)
            · simp only [List.mem_singleton] at hg
              subst hg
              exact Or.inr hpg
        have hdisj' : List.Pairwise (fun g1 g2 => Disjoint g1.allPlayers g2.allPlayers)
            (st.selected ++ [(⟨round_idx, st.selected.length, m.1, m.2⟩ : Game)]) := by
          rw [List.pairwise_append]
          refine ⟨hdisj, List.pairwise_singleton _ _, ?_⟩
          intro g hg g' hg'
          simp only [List.mem_singleton] at hg'
          subst hg'
          have hsub : g.allPlayers ⊆ st.used := by
            intro p hp
            exact (hused p).2 ⟨g, hg, hp⟩
          rw [hAll]
          exact Finset.disjoint_of_subset_left hsub hdnew.symm
        have hcnt' : ∀ p, bumpOpp st.roundOpp
            (Game.opponentPairs ⟨round_idx, st.selected.length, m.1, m.2⟩) p =
            countOpp (st.selected ++ [(⟨round_idx, st.selected.length, m.1, m.2⟩ : Game)]) p := by
          intro p
          rw [countOpp_append, countOpp_singleton, bumpOpp, hcnt p]
        have hbound' : cfg.no_repeat_opponent_in_event = true → ∀ p,
            evO p + bumpOpp st.roundOpp
              (Game.opponentPairs ⟨round_idx, st.selected.length, m.1, m.2⟩) p ≤ 2 := by
          intro hflag p
          have hopp := checkHardConstraints_opp hhc hflag
          unfold bumpOpp
          by_cases hp : p ∈ Game.opponentPairs ⟨round_idx, st.selected.length, m.1, m.2⟩
          · have := hopp p hp
            simp only [hp, if_true, ite_true]
            omega
          · simp only [hp, if_false, ite_false]
            simpa using hbound hflag p
        by_cases hlen : st.selected.length + 1 = courts
        · have hgs : gs = st.selected ++ [(⟨round_idx, st.selected.length, m.1, m.2⟩ : Game)] := by
            rw [show selectLoop cfg prev courts round_idx evT evO (m :: rest) st =
                some (st.selected ++ [(⟨round_idx, st.selected.length, m.1, m.2⟩ : Game)]) by
              simp only [selectLoop, hov, hhc, Bool.not_true, Bool.false_eq_true, if_false,
                ite_false, List.length_append, List.length_singleton, hlen, if_true,
                ite_true]] at hsel
            exact (Option.some_inj.1 hsel).symm
          subst hgs
          refine ⟨by simpa using hlen, hgood', hdisj', ?_⟩
          intro hflag p
          rw [← hcnt' p]
          exact hbound' hflag p
        · rw [show selectLoop cfg prev courts round_idx evT evO (m :: rest) st =
              selectLoop cfg prev courts round_idx evT evO rest
                ⟨st.selected ++ [⟨round_idx, st.selected.length, m.1, m.2⟩],
                 st.used ∪ {m.1.1, m.1.2, m.2.1, m.2.2},
                 st.roundTeammates ∪ Game.teammatePairs ⟨round_idx, st.selected.length, m.1, m.2⟩,
                 bumpOpp st.roundOpp (Game.opponentPairs ⟨round_idx, st.selected.length, m.1, m.2⟩)⟩ by
            simp only [selectLoop, hov, hhc, Bool.not_true, Bool.false_eq_true, if_false,
              List.length_append, List.length_singleton, hlen, if_true, ite_false,
              ite_true]] at hsel
          exact ih _ gs (fun m' hm' => hpool m' (List.mem_cons_of_mem _ hm'))
            hgood' hused' hdisj' hcnt' hbound' hsel

end MM

namespace MM

theorem countOpp_cons (g : Game) (t : List Game) (p : Finset Nat) :
    countOpp (g :: t) p = (if p ∈ g.opponentPairs then 1 else 0) + countOpp t p := by
  by_cases h : p ∈ g.opponentPairs <;> simp [countOpp, List.filter, h, Nat.add_comm]

theorem foldl_bumpOpp (rg : List Game) :
    ∀ (evO : Finset Nat → Nat) (p : Finset Nat),
      (rg.foldl (fun f g => bumpOpp f g.opponentPairs) evO) p = evO p + countOpp rg p := by
  induction rg with
  | nil => intro evO p; simp [countOpp]
  | cons g t ih =>
    intro evO p
    simp only [List.foldl_cons]
    rw [ih, countOpp_cons, bumpOpp]
    omega

theorem selectRoundGo_spec (shuffle : Nat → List Match → List Match)
    (hsh : ∀ t l, (shuffle t l).Perm l)
    (cfg : ConstraintConfig) (prev : Finset (Finset Nat)) (players : List MPlayer)
    (courts round_idx : Nat) (pool : List Match)
    (evT : Finset (Finset Nat)) (evO : Finset Nat → Nat)
    (hpool : ∀ m ∈ pool, MatchOK players m)
    (hbound : cfg.no_repeat_opponent_in_event = true → ∀ p, evO p ≤ 2) :
    ∀ (n : Nat) (gs : List Game),
      selectRoundGo shuffle cfg prev courts round_idx pool evT evO n = some gs →
      gs.length = courts ∧
      (∀ g ∈ gs, g.round_index = round_idx ∧ GameOK players g) ∧
      List.Pairwise (fun g1 g2 => Disjoint g1.allPlayers g2.allPlayers) gs ∧
      (cfg.no_repeat_opponent_in_event = true → ∀ p, evO p + countOpp gs p ≤ 2) := by
  intro n
  induction n with
  | zero => intro gs h; simp [selectRoundGo] at h
  | succ t ih =>
    intro gs h
    simp only [selectRoundGo] at h
    cases hloop : selectLoop cfg prev courts round_idx evT evO
        (shuffle (MAX_ROUND_ATTEMPTS - (t + 1)) pool) ⟨[], ∅, ∅, fun _ => 0⟩ with
    | some gs' =>
      rw [hloop] at h
      cases h
      refine selectLoop_spec cfg prev players courts round_idx evT evO
        (shuffle (MAX_ROUND_ATTEMPTS - (t + 1)) pool) ⟨[], ∅, ∅, fun _ => 0⟩ gs
        ?_ ?_ ?_ ?_ ?_ ?_ hloop
      · intro m hm
        exact hpool m ((hsh (MAX_ROUND_ATTEMPTS - (t + 1)) pool).mem_iff.1 hm)
      · intro g hg
        simp at hg
      · intro p
        simp
      · exact List.Pairwise.nil
      · intro p
        simp [countOpp]
      · intro hflag p
        simpa using hbound hflag p
    | none =>
      rw [hloop] at h
      exact ih gs h

theorem tryGenAux_spec (shuffle : Nat → Nat → List Match → List Match)
    (hsh : ∀ r t l, (shuffle r t l).Perm l)
    (cfg : ConstraintConfig) (prev : Finset (Finset Nat)) (players : List MPlayer)
    (courts : Nat) (pool : List Match)
    (hpool : ∀ m ∈ pool, MatchOK players m) :
    ∀ (rem rIdx : Nat) (acc : List Game) (evT : Finset (Finset Nat))
      (evO : Finset Nat → Nat) (gs : List Game) (fr : Option FailReason),
      (∀ g ∈ acc, g.round_index < rIdx ∧ GameOK players g) →
      (∀ r, r < rIdx →
        (roundGames acc r).length = courts ∧
        List.Pairwise (fun g1 g2 => Disjoint g1.allPlayers g2.allPlayers) (roundGames acc r)) →
      (∀ p, evO p = countOpp acc p) →
      (cfg.no_repeat_opponent_in_event = true → ∀ p, evO p ≤ 2) →
      tryGenAux shuffle cfg prev courts pool rem rIdx acc evT evO = (gs, true, fr) →
      (∀ g ∈ gs, g.round_index < rIdx + rem ∧ GameOK players g) ∧
      (∀ r, r < rIdx + rem →
        (roundGames gs r).length = courts ∧
        List.Pairwise (fun g1 g2 => Disjoint g1.allPlayers g2.allPlayers) (roundGames gs r)) ∧
      (cfg.no_repeat_opponent_in_event = true → ∀ p, countOpp gs p ≤ 2) := by
  intro rem
  induction rem with
  | zero =>
    intro rIdx acc evT evO gs fr hacc hround hcnt hbound h
    simp only [tryGenAux, Prod.mk.injEq] at h
    obtain ⟨rfl, -, -⟩ := h
    refine ⟨fun g hg => ⟨by simpa using (hacc g hg).1, (hacc g hg).2⟩, ?_, ?_⟩
    · intro r hr
      exact hround r (by simpa using hr)
    · intro hflag p
      rw [← hcnt p]
      exact hbound hflag p
  | succ rem ih =>
    intro rIdx acc evT evO gs fr hacc hround hcnt hbound h
    simp only [tryGenAux] at h
    cases hm : selectRoundMatches (shuffle rIdx) cfg prev courts rIdx pool evT evO with
    | none =>
      rw [hm] at h
      simp at h
    | some rg =>
      rw [hm] at h
      have hr := selectRoundGo_spec (shuffle rIdx) (hsh rIdx) cfg prev players courts rIdx
        pool evT evO hpool hbound MAX_ROUND_ATTEMPTS rg hm
      obtain ⟨hrglen, hrggood, hrgdisj, hrgbound⟩ := hr
      -- new invariants for acc ++ rg
      have hacc' : ∀ g ∈ acc ++ rg, g.round_index < rIdx + 1 ∧ GameOK players g := by
        intro g hg
        rcases List.mem_append.1 hg with hg | hg
        · exact ⟨Nat.lt_succ_of_lt (hacc g hg).1, (hacc g hg).2⟩
        · exact ⟨by rw [(hrggood g hg).1]; exact Nat.lt_succ_self _, (hrggood g hg).2⟩
      have hround' : ∀ r, r < rIdx + 1 →
          (roundGames (acc ++ rg) r).length = courts ∧
          List.Pairwise (fun g1 g2 => Disjoint g1.allPlayers g2.allPlayers)
            (roundGames (acc ++ rg) r) := by
        intro r hr
        rcases Nat.lt_succ_iff_lt_or_eq.1 hr with hr | hr
        · have hnil : roundGames rg r = [] := by
            rw [roundGames, List.filter_eq_nil_iff]
            intro g hg
            simp only [decide_eq_true_eq]
            rw [(hrggood g hg).1]
            omega
          rw [roundGames, List.filter_append, ← roundGames, ← roundGames, hnil,
            List.append_nil]
          exact hround r hr
        · subst hr
          have hnil : roundGames acc r = [] := by
            rw [roundGames, List.filter_eq_nil_iff]
            intro g hg
            simp only [decide_eq_true_eq]
            have := (hacc g hg).1
            omega
          have hall : roundGames rg r = rg := by
            rw [roundGames, List.filter_eq_self]
            intro g hg
            simp only [decide_eq_true_eq]
            exact (hrggood g hg).1
          rw [roundGames, List.filter_append, ← roundGames, ← roundGames, hnil,
            List.nil_append, hall]
          exact ⟨hrglen, hrgdisj⟩
      have hcnt' : ∀ p, (rg.foldl (fun f g => bumpOpp f g.opponentPairs) evO) p =
          countOpp (acc ++ rg) p := by
        intro p
        rw [foldl_bumpOpp, countOpp_append, hcnt p]
      have hbound' : cfg.no_repeat_opponent_in_event = true → ∀ p,
          (rg.foldl (fun f g => bumpOpp f g.opponentPairs) evO) p ≤ 2 := by
        intro hflag p
        rw [foldl_bumpOpp]
        exact hrgbound hflag p
      have := ih (rIdx + 1) (acc ++ rg) _ _ gs fr hacc' hround' hcnt' hbound' h
      refine ⟨?_, ?_, this.2.2⟩
      · intro g hg
        exact ⟨by have := (this.1 g hg).1; omega, (this.1 g hg).2⟩
      · intro r hr
        exact this.2.1 r (by omega)

end MM

namespace MM

theorem tryGenerate_spec (shuffle : Nat → Nat → List Match → List Match)
    (hsh : ∀ r t l, (shuffle r t l).Perm l)
    (cfg : ConstraintConfig) (prev : Finset (Finset Nat)) (players : List MPlayer)
    (courts rounds : Nat) (elo_diff : ℚ) (gs : List Game) (fr : Option FailReason)
    (hnodup : (players.map MPlayer.id).Nodup)
    (h : tryGenerate shuffle cfg prev players courts rounds elo_diff = (gs, true, fr)) :
    (∀ g ∈ gs, g.round_index < rounds ∧ GameOK players g) ∧
    (∀ r, r < rounds →
      (roundGames gs r).length = courts ∧
      List.Pairwise (fun g1 g2 => Disjoint g1.allPlayers g2.allPlayers) (roundGames gs r)) ∧
    (cfg.no_repeat_opponent_in_event = true → ∀ p, countOpp gs p ≤ 2) := by
  have h' : (if validMatches players elo_diff = [] then
        (([] : List Game), false, some FailReason.rating)
      else tryGenAux shuffle cfg prev courts (validMatches players elo_diff)
        rounds 0 [] ∅ (fun _ => 0)) = (gs, true, fr) := h
  clear h
  split at h'
  · simp at h'
  · have := tryGenAux_spec shuffle hsh cfg prev players courts
      (validMatches players elo_diff) (validMatches_ok hnodup elo_diff)
      rounds 0 [] ∅ (fun _ => 0) gs fr
      (by intro g hg; simp at hg)
      (by intro r hr; omega)
      (by intro p; simp [countOpp])
      (by intro _ p; exact Nat.zero_le 2) h'
    simpa using this

theorem generateAux_success (shuffle : Nat → Nat → Nat → List Match → List Match)
    (cfg : ConstraintConfig) (prev : Finset (Finset Nat)) (players : List MPlayer)
    (courts rounds : Nat) :
    ∀ (fuel attempts ri : Nat) (d : ℚ) (res : GenResult),
      generateAux shuffle cfg prev players courts rounds fuel attempts ri d = some res →
      res.success = true →
      ∃ ri' d' fr,
        tryGenerate (shuffle ri') cfg prev players courts rounds d' =
          (res.games, true, fr) := by
  intro fuel
  induction fuel with
  | zero => intro attempts ri d res h _; simp [generateAux] at h
  | succ fuel ih =>
    intro attempts ri d res h hsucc
    simp only [generateAux] at h
    split_ifs at h with h1 h2 h3
    · -- success branch
      cases h
      refine ⟨ri, d, (tryGenerate (shuffle ri) cfg prev players courts rounds d).2.2, ?_⟩
      have heq : tryGenerate (shuffle ri) cfg prev players courts rounds d =
          ((tryGenerate (shuffle ri) cfg prev players courts rounds d).1,
           (tryGenerate (shuffle ri) cfg prev players courts rounds d).2.1,
           (tryGenerate (shuffle ri) cfg prev players courts rounds d).2.2) := rfl
      rw [heq, h1]
    · -- rating relaxation exhausted: failure record
      cases h
      simp at hsucc
    · -- recursive relaxation step
      exact ih _ _ _ res h hsucc
    · -- immediate failure record (hard constraints)
      cases h
      simp at hsucc
    · -- immediate failure record (rating, relaxation disabled)
      cases h
      simp at hsucc
    · -- immediate failure record (generic)
      cases h
      simp at hsucc

theorem mem_allPlayers_iff (g : Game) (p : Nat) :
    p ∈ g.allPlayers ↔ p ∈ gameIdList g := by
  simp [Game.allPlayers, gameIdList]

theorem allPlayers_card {g : Game} (h : (gameIdList g).Nodup) :
    g.allPlayers.card = 4 := by
  obtain ⟨rI, cI, ⟨a, b⟩, ⟨c, d⟩⟩ := g
  simp only [gameIdList] at h
  have hd1 := List.nodup_cons.1 h
  have hd2 := List.nodup_cons.1 hd1.2
  have hd3 := List.nodup_cons.1 hd2.2
  have h12 : a ≠ b := fun hx => hd1.1 (by simp [hx])
  have h13 : a ≠ c := fun hx => hd1.1 (by simp [hx])
  have h14 : a ≠ d := fun hx => hd1.1 (by simp [hx])
  have h23 : b ≠ c := fun hx => hd2.1 (by simp [hx])
  have h24 : b ≠ d := fun hx => hd2.1 (by simp [hx])
  have h34 : c ≠ d := fun hx => hd3.1 (by simp [hx])
  simp [Game.allPlayers, Finset.card_insert_of_not_mem, h12, h13, h14, h23, h24, h34]

theorem disjoint_unionPlayers {s : Finset Nat} {t : List Game}
    (h : ∀ g ∈ t, Disjoint s g.allPlayers) : Disjoint s (unionPlayers t) := by
  induction t with
  | nil => simp [unionPlayers]
  | cons g gt ih =>
    rw [show unionPlayers (g :: gt) = g.allPlayers ∪ unionPlayers gt from rfl,
      Finset.disjoint_union_right]
    exact ⟨h g (List.mem_cons_self _ _), ih (fun g' hg' => h g' (List.mem_cons_of_mem _ hg'))⟩

theorem unionPlayers_card {t : List Game}
    (hd : List.Pairwise (fun g1 g2 => Disjoint g1.allPlayers g2.allPlayers) t)
    (hOK : ∀ g ∈ t, (gameIdList g).Nodup) :
    (unionPlayers t).card = 4 * t.length := by
  induction t with
  | nil => simp [unionPlayers]
  | cons g gt ih =>
    rw [show unionPlayers (g :: gt) = g.allPlayers ∪ unionPlayers gt from rfl]
    have hdj : Disjoint g.allPlayers (unionPlayers gt) :=
      disjoint_unionPlayers (fun g' hg' => (List.pairwise_cons.1 hd).1 g' hg')
    rw [Finset.card_union_of_disjoint hdj,
      allPlayers_card (hOK g (List.mem_cons_self _ _)),
      ih (List.pairwise_cons.1 hd).2 (fun g' hg' => hOK g' (List.mem_cons_of_mem _ hg'))]
    simp [List.length_cons]
    ring

theorem unionPlayers_subset {players : List MPlayer} {t : List Game}
    (hOK : ∀ g ∈ t, ∀ x ∈ gameIdList g, x ∈ idSet players) :
    unionPlayers t ⊆ idSet players := by
  induction t with
  | nil => simp [unionPlayers]
  | cons g gt ih =>
    rw [show unionPlayers (g :: gt) = g.allPlayers ∪ unionPlayers gt from rfl,
      Finset.union_subset_iff]
    constructor
    · intro p hp
      exact hOK g (List.mem_cons_self _ _) p ((mem_allPlayers_iff g p).1 hp)
    · exact ih (fun g' hg' => hOK g' (List.mem_cons_of_mem _ hg'))

end MM

namespace MM

/-- C1: in every successful schedule generation, each round `r < rounds`
has exactly `courts` games, the games of a round are player-disjoint with
four distinct players each, and the union of their players is exactly the
participant id set of size `4 · courts`. -/
theorem schedule_round_partition
    (shuffle : Nat → Nat → Nat → List Match → List Match)
    (hsh : ∀ ri r t l, (shuffle ri r t l).Perm l)
    (cfg : ConstraintConfig) (prev : Finset (Finset Nat)) (players : List MPlayer)
    (courts rounds fuel : Nat) (res : GenResult)
    (hnodup : (players.map MPlayer.id).Nodup)
    (hlen : players.length = courts * 4)
    (hgen : generate shuffle cfg prev players courts rounds fuel = some res)
    (hsucc : res.success = true) :
    ∀ r, r < rounds →
      (roundGames res.games r).length = courts ∧
      unionPlayers (roundGames res.games r) = idSet players ∧
      (idSet players).card = 4 * courts ∧
      List.Pairwise (fun g1 g2 => Disjoint g1.allPlayers g2.allPlayers)
        (roundGames res.games r) ∧
      ∀ g ∈ roundGames res.games r, (gameIdList g).Nodup := by
  obtain ⟨ri', d', fr, htry⟩ := generateAux_success shuffle cfg prev players courts rounds
    fuel 0 0 cfg.elo_diff res hgen hsucc
  have spec := tryGenerate_spec (shuffle ri') (hsh ri') cfg prev players courts rounds d'
    res.games fr hnodup htry
  intro r hr
  have hgood : ∀ g ∈ roundGames res.games r, GameOK players g := by
    intro g hg
    exact (spec.1 g (List.mem_filter.1 hg).1).2
  have hcard : (idSet players).card = 4 * courts := by
    rw [idSet, List.toFinset_card_of_nodup hnodup, List.length_map, hlen]
    ring
  have hucard : (unionPlayers (roundGames res.games r)).card = 4 * courts := by
    rw [unionPlayers_card (spec.2.1 r hr).2 (fun g hg => (hgood g hg).1), (spec.2.1 r hr).1]
  refine ⟨(spec.2.1 r hr).1, ?_, hcard, (spec.2.1 r hr).2, fun g hg => (hgood g hg).1⟩
  refine Finset.eq_of_subset_of_card_le
    (unionPlayers_subset (fun g hg x hx => (hgood g hg).2 x hx)) ?_
  rw [hcard, hucard]

/-- C2: in every successful schedule generation with
`no_repeat_opponent_in_event = true`, every unordered pair of players
appears on opposite teams in at most two games across the whole event. -/
theorem schedule_opponent_bound
    (shuffle : Nat → Nat → Nat → List Match → List Match)
    (hsh : ∀ ri r t l, (shuffle ri r t l).Perm l)
    (cfg : ConstraintConfig) (prev : Finset (Finset Nat)) (players : List MPlayer)
    (courts rounds fuel : Nat) (res : GenResult)
    (hnodup : (players.map MPlayer.id).Nodup)
    (hflag : cfg.no_repeat_opponent_in_event = true)
    (hgen : generate shuffle cfg prev players courts rounds fuel = some res)
    (hsucc : res.success = true) :
    ∀ a b : Nat, countOpp res.games {a, b} ≤ 2 := by
  obtain ⟨ri', d', fr, htry⟩ := generateAux_success shuffle cfg prev players courts rounds
    fuel 0 0 cfg.elo_diff res hgen hsucc
  have spec := tryGenerate_spec (shuffle ri') (hsh ri') cfg prev players courts rounds d'
    res.games fr hnodup htry
  intro a b
  exact spec.2.2 hflag {a, b}

theorem schedule_round_partition_witness :
    generate Fixtures.idShuffle {} ∅ Fixtures.players4C 1 1 1 = some Fixtures.res4C ∧
    ((roundGames Fixtures.res4C.games 0).length = 1 ∧
     unionPlayers (roundGames Fixtures.res4C.games 0) = idSet Fixtures.players4C ∧
     (idSet Fixtures.players4C).card = 4 * 1 ∧
     List.Pairwise (fun g1 g2 => Disjoint g1.allPlayers g2.allPlayers)
       (roundGames Fixtures.res4C.games 0) ∧
     ∀ g ∈ roundGames Fixtures.res4C.games 0, (gameIdList g).Nodup) :=
  ⟨by with_unfolding_all decide,
   schedule_round_partition Fixtures.idShuffle (fun _ _ _ _ => List.Perm.refl _) {} ∅
     Fixtures.players4C 1 1 1 Fixtures.res4C (by with_unfolding_all decide)
     (by with_unfolding_all decide) (by with_unfolding_all decide) rfl 0 (by norm_num)⟩

theorem schedule_opponent_bound_witness :
    generate Fixtures.idShuffle {} ∅ Fixtures.players4C 1 1 1 = some Fixtures.res4C ∧
    countOpp Fixtures.res4C.games {1, 3} ≤ 2 :=
  ⟨by with_unfolding_all decide,
   schedule_opponent_bound Fixtures.idShuffle (fun _ _ _ _ => List.Perm.refl _) {} ∅
     Fixtures.players4C 1 1 1 Fixtures.res4C (by with_unfolding_all decide) rfl
     (by with_unfolding_all decide) rfl 1 3⟩

end MM
